import Mathlib

/-!
Shallow embedding of src/src/utils/cancer_simulation.py.

Real-valued (float64) quantities are modelled as rationals.  The
transcendental functions the source applies (np.exp, np.log, the cube
root inside calc_diameter, np.pi) are not rational-valued, so they are
collected in a SimOracle record of rational-valued stand-ins; every
definition below is parametric in the oracle, and theorems that need an
analytic fact about one of these functions (e.g. exp x >= 1 for x >= 0)
take it as an explicit hypothesis.  Random draws (np.random.randn,
np.random.rand) are inputs: each routine receives the drawn arrays as
function arguments, exactly as the drawn numpy arrays are consumed.
-/

namespace CancerSim

/-- Rational-valued stand-ins for np.exp, np.log, the cube root used by
calc_diameter, and np.pi. -/
structure SimOracle where
  exp : ℚ → ℚ
  log : ℚ → ℚ
  cbrt : ℚ → ℚ
  pi : ℚ

/-- Source calc_volume: 4/3 * pi * (diameter/2) ** 3. -/
def calc_volume (o : SimOracle) (diameter : ℚ) : ℚ :=
  4 / 3 * o.pi * (diameter / 2) ^ (3 : ℕ)

/-- Source calc_diameter: ((volume / (4/3 * pi)) ** (1/3)) * 2. -/
def calc_diameter (o : SimOracle) (volume : ℚ) : ℚ :=
  o.cbrt (volume / (4 / 3 * o.pi)) * 2

/-- Source tumour_cell_density = 5.8e8 cells per cm^3. -/
def tumour_cell_density : ℚ := 58 * 10 ^ (7 : ℕ)

/-- Source tumour_death_threshold = calc_volume(13). -/
def tumour_death_threshold (o : SimOracle) : ℚ := calc_volume o 13

/-- Source drug_half_life = 1 (one day half life for drugs). -/
def drug_half_life : ℚ := 1

/-- Source chemo_amt[0] = 5.0. -/
def chemo_amt : ℚ := 5

/-- Source radio_amt[0] = 2.0. -/
def radio_amt : ℚ := 2

/-- Per-step multiplicative decay of the chemo concentration,
np.exp(-np.log(2) / drug_half_life). -/
def chemo_decay (o : SimOracle) : ℚ := o.exp (-o.log 2 / drug_half_life)

/-- Pointwise update of a time-indexed array (numpy single-cell write). -/
def upd (f : ℕ → ℚ) (k : ℕ) (x : ℚ) : ℕ → ℚ :=
  fun j => if j = k then x else f j

/-- Source cancer_metric_used at step t: the mean of calc_diameter over
the slice vol[max(t - window_size, 0) : t + 1].  Natural subtraction
t - window_size equals max(t - window_size, 0). -/
def cancer_metric_used (o : SimOracle) (vol : ℕ → ℚ) (window_size t : ℕ) : ℚ :=
  (((List.range (t + 1 - (t - window_size))).map
      fun j => calc_diameter o (vol (t - window_size + j))).sum)
    / ((t + 1 - (t - window_size) : ℕ) : ℚ)

/-- Source sigmoid treatment probability
1 / (1 + exp(-beta * (metric - intercept))). -/
def sigmoid_prob (o : SimOracle) (beta intercept metric : ℚ) : ℚ :=
  1 / (1 + o.exp (-beta * (metric - intercept)))

/-- Per-patient simulation parameters, as unpacked at the top of
simulate / simulate_counterfactual_test_data / simulate_sequence_test. -/
structure PatientParams where
  initial_volume : ℚ
  alpha : ℚ
  rho : ℚ
  beta : ℚ
  beta_c : ℚ
  Kcap : ℚ
  patient_type : ℚ
  chemo_sigmoid_intercept : ℚ
  radio_sigmoid_intercept : ℚ
  chemo_sigmoid_beta : ℚ
  radio_sigmoid_beta : ℚ

/-- Source get_confounding_params: overrides the sigmoid intercepts with
d_max / 2 and the sigmoid slopes with coeff / d_max, where
d_max = calc_diameter(tumour_death_threshold); the remaining fields come
from get_standard_params (random draws, taken here as the given record). -/
def get_confounding_params (o : SimOracle) (basic : PatientParams)
    (chemo_coeff radio_coeff : ℚ) : PatientParams :=
  { basic with
    chemo_sigmoid_intercept := calc_diameter o (tumour_death_threshold o) / 2
    radio_sigmoid_intercept := calc_diameter o (tumour_death_threshold o) / 2
    chemo_sigmoid_beta := chemo_coeff / calc_diameter o (tumour_death_threshold o)
    radio_sigmoid_beta := radio_coeff / calc_diameter o (tumour_death_threshold o) }

/-- Random draws consumed by simulate for one patient: row i of
noise_terms (already scaled by 0.01), recovery_rvs,
chemo_application_rvs and radio_application_rvs. -/
structure PatientDraws where
  noise : ℕ → ℚ
  recovery_rvs : ℕ → ℚ
  chemo_rvs : ℕ → ℚ
  radio_rvs : ℕ → ℚ

/-- The per-time output arrays of simulate for one patient (row i of
each preallocated zero array). -/
structure SimArrays where
  vol : ℕ → ℚ
  cdos : ℕ → ℚ
  rdos : ℕ → ℚ
  capp : ℕ → ℚ
  rapp : ℕ → ℚ
  cprob : ℕ → ℚ
  rprob : ℕ → ℚ

/-- All-zero arrays (numpy preallocation). -/
def SimArrays.zero : SimArrays :=
  ⟨fun _ => 0, fun _ => 0, fun _ => 0, fun _ => 0, fun _ => 0, fun _ => 0, fun _ => 0⟩

/-- Terminal classification of a simulated patient: the break on death,
the break on recovery, or normal loop completion (censoring). -/
inductive Outcome where
  | death : Outcome
  | recovered : Outcome
  | censored : Outcome
deriving DecidableEq

/-- Result of simulate for one patient: final arrays, the value of the
loop variable t at loop exit, sequence_lengths[i] = t + 1, and the
terminal classification. -/
structure SimPath where
  arr : SimArrays
  tStop : ℕ
  seqLen : ℕ
  outcome : Outcome

/-- chemo_prob of simulate at step t: assigned_actions[i, t, 0] when
assigned actions are supplied, otherwise the sigmoid policy on the
rolling mean-diameter metric. -/
def simChemoProb (o : SimOracle) (p : PatientParams)
    (assigned : Option (ℕ → ℚ × ℚ)) (window_size : ℕ)
    (a : SimArrays) (t : ℕ) : ℚ :=
  match assigned with
  | some f => (f t).1
  | none => sigmoid_prob o p.chemo_sigmoid_beta p.chemo_sigmoid_intercept
      (cancer_metric_used o a.vol window_size t)

/-- radio_prob of simulate at step t. -/
def simRadioProb (o : SimOracle) (p : PatientParams)
    (assigned : Option (ℕ → ℚ × ℚ)) (window_size : ℕ)
    (a : SimArrays) (t : ℕ) : ℚ :=
  match assigned with
  | some f => (f t).2
  | none => sigmoid_prob o p.radio_sigmoid_beta p.radio_sigmoid_intercept
      (cancer_metric_used o a.vol window_size t)

/-- chemo_application_rvs[i, t] < chemo_prob. -/
def simChemoApplied (o : SimOracle) (p : PatientParams) (d : PatientDraws)
    (assigned : Option (ℕ → ℚ × ℚ)) (window_size : ℕ)
    (a : SimArrays) (t : ℕ) : Bool :=
  decide (d.chemo_rvs t < simChemoProb o p assigned window_size a t)

/-- radio_application_rvs[i, t] < radio_prob. -/
def simRadioApplied (o : SimOracle) (p : PatientParams) (d : PatientDraws)
    (assigned : Option (ℕ → ℚ × ℚ)) (window_size : ℕ)
    (a : SimArrays) (t : ℕ) : Bool :=
  decide (d.radio_rvs t < simRadioProb o p assigned window_size a t)

/-- chemo_dosage[i, t] = previous_chemo_dose * exp(-ln 2 / half_life)
+ current_chemo_dose. -/
def simChemoDoseT (o : SimOracle) (p : PatientParams) (d : PatientDraws)
    (assigned : Option (ℕ → ℚ × ℚ)) (window_size : ℕ)
    (a : SimArrays) (t : ℕ) : ℚ :=
  (if t = 0 then 0 else a.cdos (t - 1)) * chemo_decay o
    + (if simChemoApplied o p d assigned window_size a t then chemo_amt else 0)

/-- radio_dosage[i, t]. -/
def simRadioDoseT (o : SimOracle) (p : PatientParams) (d : PatientDraws)
    (assigned : Option (ℕ → ℚ × ℚ)) (window_size : ℕ)
    (a : SimArrays) (t : ℕ) : ℚ :=
  if simRadioApplied o p d assigned window_size a t then radio_amt else 0

/-- cancer_volume[i, t+1] before the death / recovery rewrites
(simulate adds noise[t], unlike the counterfactual routines). -/
def simNewVol (o : SimOracle) (p : PatientParams) (d : PatientDraws)
    (assigned : Option (ℕ → ℚ × ℚ)) (window_size : ℕ)
    (a : SimArrays) (t : ℕ) : ℚ :=
  a.vol t * (1 + p.rho * o.log (p.Kcap / a.vol t)
    - p.beta_c * simChemoDoseT o p d assigned window_size a t
    - (p.alpha * simRadioDoseT o p d assigned window_size a t
        + p.beta * simRadioDoseT o p d assigned window_size a t ^ (2 : ℕ))
    + d.noise t)

/-- The value left in cancer_volume[i, t+1] after the death clamp and
the recovery rewrite. -/
def simStoredVol (o : SimOracle) (p : PatientParams) (d : PatientDraws)
    (assigned : Option (ℕ → ℚ × ℚ)) (window_size : ℕ)
    (a : SimArrays) (t : ℕ) : ℚ :=
  if simNewVol o p d assigned window_size a t > tumour_death_threshold o then
    tumour_death_threshold o
  else if d.recovery_rvs (t + 1) <
      o.exp (-(simNewVol o p d assigned window_size a t * tumour_cell_density)) then 0
  else simNewVol o p d assigned window_size a t

/-- The break taken by iteration t, if any: death when the new volume
exceeds the threshold, else recovery when
recovery_rvs[i, t+1] < exp(-volume * cell_density). -/
def simBrk (o : SimOracle) (p : PatientParams) (d : PatientDraws)
    (assigned : Option (ℕ → ℚ × ℚ)) (window_size : ℕ)
    (a : SimArrays) (t : ℕ) : Option Outcome :=
  if simNewVol o p d assigned window_size a t > tumour_death_threshold o then
    some .death
  else if d.recovery_rvs (t + 1) <
      o.exp (-(simNewVol o p d assigned window_size a t * tumour_cell_density)) then
    some .recovered
  else none

/-- One iteration of the time loop of simulate (body of
for t in range(0, num_time_steps - 1)): treatment probabilities,
action application, chemo dosage update, volume recurrence, and the
death / recovery break checks.  Returns the updated arrays and the
break reason, if any. -/
def simStep (o : SimOracle) (p : PatientParams) (d : PatientDraws)
    (assigned : Option (ℕ → ℚ × ℚ)) (window_size : ℕ)
    (a : SimArrays) (t : ℕ) : SimArrays × Option Outcome :=
  ({ vol := upd a.vol (t + 1) (simStoredVol o p d assigned window_size a t)
     cdos := upd a.cdos t (simChemoDoseT o p d assigned window_size a t)
     rdos := if simRadioApplied o p d assigned window_size a t
       then upd a.rdos t radio_amt else a.rdos
     capp := if simChemoApplied o p d assigned window_size a t
       then upd a.capp t 1 else a.capp
     rapp := if simRadioApplied o p d assigned window_size a t
       then upd a.rapp t 1 else a.rapp
     cprob := upd a.cprob t (simChemoProb o p assigned window_size a t)
     rprob := upd a.rprob t (simRadioProb o p assigned window_size a t) },
   simBrk o p d assigned window_size a t)

/-- The time loop of simulate, by structural recursion on the number of
remaining iterations.  Called with fuel = num_time_steps - 1 at t = 0.
On normal completion the Python loop variable retains its last value
t - 1, so sequence_lengths[i] = (t - 1) + 1. -/
def simLoop (o : SimOracle) (p : PatientParams) (d : PatientDraws)
    (assigned : Option (ℕ → ℚ × ℚ)) (window_size : ℕ) :
    ℕ → ℕ → SimArrays → SimPath
  | 0 => fun t a => ⟨a, t - 1, t - 1 + 1, .censored⟩
  | fuel + 1 => fun t a =>
    match simStep o p d assigned window_size a t with
    | (a2, some k) => ⟨a2, t, t + 1, k⟩
    | (a2, none) => simLoop o p d assigned window_size fuel (t + 1) a2

/-- Source simulate, for one patient i: arrays are preallocated to zero,
cancer_volume[i, 0] = initial_volumes[i], then the time loop runs for
num_time_steps - 1 iterations.  (For num_time_steps <= 1 the source
raises NameError at sequence_lengths[i] = int(t + 1); theorems assume
2 <= num_time_steps.) -/
def simulatePatient (o : SimOracle) (p : PatientParams) (d : PatientDraws)
    (assigned : Option (ℕ → ℚ × ℚ)) (window_size num_time_steps : ℕ) : SimPath :=
  simLoop o p d assigned window_size (num_time_steps - 1) 0
    { SimArrays.zero with vol := upd (fun _ => 0) 0 p.initial_volume }

/-- Source simulate over the whole cohort: rows are independent patients,
each advanced with its own parameters and random draws. -/
def simulateCohort (o : SimOracle) (params : ℕ → PatientParams)
    (draws : ℕ → PatientDraws) (assigned : Option (ℕ → ℕ → ℚ × ℚ))
    (window_size num_time_steps : ℕ) : ℕ → SimPath :=
  fun i =>
    simulatePatient o (params i) (draws i) (assigned.map fun f => f i)
      window_size num_time_steps

/-! ## simulate_counterfactual_test_data

The routine writes into big preallocated zero arrays indexed by test_idx
and finally truncates them to [:test_idx]; this is modelled as an
append-only list of output rows.  A row records the per-time output
arrays (cancer_volume, chemo_application, radio_application), the stored
sequence_lengths entry and patient_types entry, together with
bookkeeping of which loop iteration emitted it (patient index i,
decision time t, and whether it is one of the three counterfactual
branch rows or the factual row); the bookkeeping fields are not part of
the source's output arrays and are used only to state per-row
properties.  Note the source's treatment-policy metric at patient i
reads row i of the big output array (cancer_volume[i, ...]), not the
in-progress factual path; rows not yet written read as zeros, which the
List.getD default reproduces. -/

/-- Source treatment_options = [(0,0),(0,1),(1,0),(1,1)]
(first = chemo, second = radio). -/
def cf_treatment_options : List (ℚ × ℚ) := [(0, 0), (0, 1), (1, 0), (1, 1)]

/-- One output row of simulate_counterfactual_test_data. -/
structure CFRow where
  vol : ℕ → ℚ
  capp : ℕ → ℚ
  rapp : ℕ → ℚ
  seqLen : ℕ
  ptype : ℚ
  patient : ℕ
  decisionT : ℕ
  isBranch : Bool

instance : Inhabited CFRow :=
  ⟨{ vol := fun _ => 0, capp := fun _ => 0, rapp := fun _ => 0, seqLen := 0,
     ptype := 0, patient := 0, decisionT := 0, isBranch := false }⟩

instance : Inhabited SimArrays := ⟨SimArrays.zero⟩

/-- The metric of simulate_counterfactual_test_data at patient i, step t:
the slice is taken from row i of the big output array
(cancer_volume[i, max(t - window_size, 0) : t + 1]). -/
def cfMetric (o : SimOracle) (rows : List CFRow) (i w t : ℕ) : ℚ :=
  cancer_metric_used o (rows.getD i default).vol w t

/-- Chemo assignment probability in the counterfactual routine. -/
def cfChemoProb (o : SimOracle) (p : PatientParams) (rows : List CFRow)
    (i w t : ℕ) : ℚ :=
  sigmoid_prob o p.chemo_sigmoid_beta p.chemo_sigmoid_intercept (cfMetric o rows i w t)

/-- Radio assignment probability in the counterfactual routine. -/
def cfRadioProb (o : SimOracle) (p : PatientParams) (rows : List CFRow)
    (i w t : ℕ) : ℚ :=
  sigmoid_prob o p.radio_sigmoid_beta p.radio_sigmoid_intercept (cfMetric o rows i w t)

/-- Factual chemo application decision (chemo_application_rvs[t] < chemo_prob). -/
def cfChemoApplied (o : SimOracle) (p : PatientParams) (d : PatientDraws)
    (rows : List CFRow) (i w t : ℕ) : Bool :=
  decide (d.chemo_rvs t < cfChemoProb o p rows i w t)

/-- Factual radio application decision (radio_application_rvs[t] < radio_prob). -/
def cfRadioApplied (o : SimOracle) (p : PatientParams) (d : PatientDraws)
    (rows : List CFRow) (i w t : ℕ) : Bool :=
  decide (d.radio_rvs t < cfRadioProb o p rows i w t)

/-- previous_chemo_dose = 0.0 if t == 0 else factual_chemo_dosage[t-1]. -/
def cfPrevDose (fa : SimArrays) (t : ℕ) : ℚ :=
  if t = 0 then 0 else fa.cdos (t - 1)

/-- Factual chemo dosage written at step t. -/
def cfChemoDoseT (o : SimOracle) (p : PatientParams) (d : PatientDraws)
    (rows : List CFRow) (i w : ℕ) (fa : SimArrays) (t : ℕ) : ℚ :=
  cfPrevDose fa t * chemo_decay o
    + (if cfChemoApplied o p d rows i w t then chemo_amt else 0)

/-- Factual radio dosage at step t (radio_amt if applied, else 0). -/
def cfRadioDoseT (o : SimOracle) (p : PatientParams) (d : PatientDraws)
    (rows : List CFRow) (i w t : ℕ) : ℚ :=
  if cfRadioApplied o p d rows i w t then radio_amt else 0

/-- Factual next volume before clipping; the counterfactual routine uses
noise[t + 1]. -/
def cfNewVolRaw (o : SimOracle) (p : PatientParams) (d : PatientDraws)
    (rows : List CFRow) (i w : ℕ) (fa : SimArrays) (t : ℕ) : ℚ :=
  fa.vol t * (1 + p.rho * o.log (p.Kcap / fa.vol t)
    - p.beta_c * cfChemoDoseT o p d rows i w fa t
    - (p.alpha * cfRadioDoseT o p d rows i w t
        + p.beta * cfRadioDoseT o p d rows i w t ^ (2 : ℕ))
    + d.noise (t + 1))

/-- np.clip(factual_cancer_volume[t+1], 0, tumour_death_threshold). -/
def cfNewVol (o : SimOracle) (p : PatientParams) (d : PatientDraws)
    (rows : List CFRow) (i w : ℕ) (fa : SimArrays) (t : ℕ) : ℚ :=
  min (max (cfNewVolRaw o p d rows i w fa t) 0) (tumour_death_threshold o)

/-- The factual arrays after the updates of iteration t. -/
def cfFactUpdate (o : SimOracle) (p : PatientParams) (d : PatientDraws)
    (rows : List CFRow) (i w : ℕ) (fa : SimArrays) (t : ℕ) : SimArrays :=
  { vol := upd fa.vol (t + 1) (cfNewVol o p d rows i w fa t)
    cdos := upd fa.cdos t (cfChemoDoseT o p d rows i w fa t)
    rdos := if cfRadioApplied o p d rows i w t then upd fa.rdos t radio_amt else fa.rdos
    capp := if cfChemoApplied o p d rows i w t then upd fa.capp t 1 else fa.capp
    rapp := if cfRadioApplied o p d rows i w t then upd fa.rapp t 1 else fa.rapp
    cprob := upd fa.cprob t (cfChemoProb o p rows i w t)
    rprob := upd fa.rprob t (cfRadioProb o p rows i w t) }

/-- The one-step counterfactual volume for an alternative treatment
option: same factual volume V(t), same previous chemo dose, same
noise[t + 1], not clipped. -/
def cfBranchVol (o : SimOracle) (p : PatientParams) (d : PatientDraws)
    (fa2 : SimArrays) (t : ℕ) (opt : ℚ × ℚ) : ℚ :=
  let cfDose : ℚ := cfPrevDose fa2 t * chemo_decay o + (if opt.1 = 1 then chemo_amt else 0)
  let rDose : ℚ := if opt.2 = 1 then radio_amt else 0
  fa2.vol t * (1 + p.rho * o.log (p.Kcap / fa2.vol t)
    - p.beta_c * cfDose
    - (p.alpha * rDose + p.beta * rDose ^ (2 : ℕ))
    + d.noise (t + 1))

/-- A counterfactual branch row: volume entries [:t+2] are
np.append(factual_cancer_volume[:t+1], [counterfactual value]) written
onto a zero row, applications [:t+1] are
np.append(factual_applications[:t], [branch action]). -/
def cfBranchRow (o : SimOracle) (p : PatientParams) (d : PatientDraws)
    (ptype : ℚ) (i t : ℕ) (fa2 : SimArrays) (opt : ℚ × ℚ) : CFRow :=
  { vol := fun j => if j ≤ t then fa2.vol j
      else if j = t + 1 then cfBranchVol o p d fa2 t opt else 0
    capp := fun j => if j < t then fa2.capp j
      else if j = t then (if opt.1 = 1 then 1 else 0) else 0
    rapp := fun j => if j < t then fa2.rapp j
      else if j = t then (if opt.2 = 1 then 1 else 0) else 0
    seqLen := t + 1
    ptype := ptype
    patient := i
    decisionT := t
    isBranch := true }

/-- The factual row emitted at iteration t: a copy of the current
factual arrays, with sequence_lengths[test_idx] = int(t) + 1. -/
def cfFactualRow (ptype : ℚ) (i t : ℕ) (fa2 : SimArrays) : CFRow :=
  { vol := fa2.vol, capp := fa2.capp, rapp := fa2.rapp, seqLen := t + 1,
    ptype := ptype, patient := i, decisionT := t, isBranch := false }

/-- Rows emitted by iteration t: the factual row followed by one branch
row per treatment option, skipping the option equal to the factual
applications. -/
def cfStepRows (o : SimOracle) (p : PatientParams) (d : PatientDraws)
    (w : ℕ) (ptype : ℚ) (i : ℕ) (rows : List CFRow) (fa : SimArrays)
    (t : ℕ) : List CFRow × SimArrays :=
  let fa2 := cfFactUpdate o p d rows i w fa t
  (rows ++ [cfFactualRow ptype i t fa2]
    ++ (cf_treatment_options.filterMap fun opt =>
        if fa2.capp t = opt.1 ∧ fa2.rapp t = opt.2 then none
        else some (cfBranchRow o p d ptype i t fa2 opt)),
   fa2)

/-- End-of-iteration break test of the counterfactual routine:
factual_cancer_volume[t+1] >= tumour_death_threshold or
recovery_rvs[t] <= exp(-factual_cancer_volume[t+1] * tumour_cell_density). -/
def cfBreakCond (o : SimOracle) (d : PatientDraws) (fa2 : SimArrays) (t : ℕ) : Bool :=
  decide (tumour_death_threshold o ≤ fa2.vol (t + 1))
    || decide (d.recovery_rvs t ≤ o.exp (-(fa2.vol (t + 1) * tumour_cell_density)))

/-- Time loop of simulate_counterfactual_test_data for one patient. -/
def cfLoop (o : SimOracle) (p : PatientParams) (d : PatientDraws)
    (w : ℕ) (ptype : ℚ) (i : ℕ) :
    ℕ → ℕ → List CFRow → SimArrays → List CFRow × SimArrays
  | 0 => fun _t rows fa => (rows, fa)
  | fuel + 1 => fun t rows fa =>
    let res := cfStepRows o p d w ptype i rows fa t
    if cfBreakCond o d res.2 t then res
    else cfLoop o p d w ptype i fuel (t + 1) res.1 res.2

/-- One patient of simulate_counterfactual_test_data: all factual arrays
start at zero with factual_cancer_volume[0] = initial_volumes[i]. -/
def cfPatient (o : SimOracle) (p : PatientParams) (d : PatientDraws)
    (w T i : ℕ) (rows : List CFRow) : List CFRow × SimArrays :=
  cfLoop o p d w p.patient_type i (T - 1) 0 rows
    { SimArrays.zero with vol := upd (fun _ => 0) 0 p.initial_volume }

/-- Patient loop of simulate_counterfactual_test_data, threading the
output rows (the first component) and collecting each patient's final
factual arrays (the source's local factual_* variables, exposed so that
per-row statements can refer to the factual path). -/
def cfRunAux (o : SimOracle) (params : ℕ → PatientParams)
    (draws : ℕ → PatientDraws) (w T : ℕ) :
    ℕ → ℕ → List CFRow × List SimArrays → List CFRow × List SimArrays
  | 0 => fun _i st => st
  | n + 1 => fun i st =>
    let r := cfPatient o (params i) (draws i) w T i st.1
    cfRunAux o params draws w T n (i + 1) (r.1, st.2 ++ [r.2])

/-- Source simulate_counterfactual_test_data over a cohort of
num_patients patients.  Random draws (per-patient noise, recovery_rvs,
chemo/radio application rvs, freshly drawn per patient after
np.random.seed(100)) are inputs. -/
def simulate_counterfactual_test_data (o : SimOracle)
    (params : ℕ → PatientParams) (draws : ℕ → PatientDraws)
    (w T P : ℕ) : List CFRow × List SimArrays :=
  cfRunAux o params draws w T P 0 ([], [])

/-! ## Float values with IEEE special elements

simulate_sequence_test filters branches with np.isnan, so the embedding
of that routine must distinguish NaN from infinities.  FV models a
float64 value as either a finite rational, +inf, -inf, or NaN, with the
IEEE-754 special-value rules for the operations the routine performs.
Rounding and overflow of finite values are abstracted away (finite
arithmetic is exact), and zero is unsigned; in the operations used here
a zero produced by addition or clipping is IEEE +0, which matches the
division rule below. -/

inductive FV where
  | fin : ℚ → FV
  | pinf : FV
  | ninf : FV
  | nan : FV
deriving DecidableEq

instance : Inhabited FV := ⟨FV.fin 0⟩

/-- IEEE addition. -/
def FV.add : FV → FV → FV
  | FV.nan, _ => FV.nan
  | _, FV.nan => FV.nan
  | FV.fin a, FV.fin b => FV.fin (a + b)
  | FV.fin _, FV.pinf => FV.pinf
  | FV.fin _, FV.ninf => FV.ninf
  | FV.pinf, FV.fin _ => FV.pinf
  | FV.ninf, FV.fin _ => FV.ninf
  | FV.pinf, FV.pinf => FV.pinf
  | FV.ninf, FV.ninf => FV.ninf
  | FV.pinf, FV.ninf => FV.nan
  | FV.ninf, FV.pinf => FV.nan

/-- IEEE negation. -/
def FV.neg : FV → FV
  | FV.fin a => FV.fin (-a)
  | FV.pinf => FV.ninf
  | FV.ninf => FV.pinf
  | FV.nan => FV.nan

/-- IEEE subtraction. -/
def FV.sub (x y : FV) : FV := FV.add x (FV.neg y)

/-- IEEE multiplication (0 * inf = NaN). -/
def FV.mul : FV → FV → FV
  | FV.nan, _ => FV.nan
  | _, FV.nan => FV.nan
  | FV.fin a, FV.fin b => FV.fin (a * b)
  | FV.fin a, FV.pinf => if 0 < a then FV.pinf else if a < 0 then FV.ninf else FV.nan
  | FV.fin a, FV.ninf => if 0 < a then FV.ninf else if a < 0 then FV.pinf else FV.nan
  | FV.pinf, FV.fin b => if 0 < b then FV.pinf else if b < 0 then FV.ninf else FV.nan
  | FV.ninf, FV.fin b => if 0 < b then FV.ninf else if b < 0 then FV.pinf else FV.nan
  | FV.pinf, FV.pinf => FV.pinf
  | FV.pinf, FV.ninf => FV.ninf
  | FV.ninf, FV.pinf => FV.ninf
  | FV.ninf, FV.ninf => FV.pinf

/-- IEEE division; a finite nonzero value divided by (unsigned, i.e. +0)
zero is a signed infinity, 0/0 is NaN, finite/inf is 0, inf/inf is NaN. -/
def FV.div : FV → FV → FV
  | FV.nan, _ => FV.nan
  | _, FV.nan => FV.nan
  | FV.fin a, FV.fin b =>
    if b = 0 then (if 0 < a then FV.pinf else if a < 0 then FV.ninf else FV.nan)
    else FV.fin (a / b)
  | FV.fin _, FV.pinf => FV.fin 0
  | FV.fin _, FV.ninf => FV.fin 0
  | FV.pinf, FV.fin b => if 0 ≤ b then FV.pinf else FV.ninf
  | FV.ninf, FV.fin b => if 0 ≤ b then FV.ninf else FV.pinf
  | FV.pinf, FV.pinf => FV.nan
  | FV.pinf, FV.ninf => FV.nan
  | FV.ninf, FV.pinf => FV.nan
  | FV.ninf, FV.ninf => FV.nan

instance : Add FV := ⟨FV.add⟩
instance : Sub FV := ⟨FV.sub⟩
instance : Mul FV := ⟨FV.mul⟩
instance : Div FV := ⟨FV.div⟩
instance : Neg FV := ⟨FV.neg⟩

/-- np.exp on float values (exp(-inf) = 0, exp(inf) = inf); finite
arguments go to the oracle. -/
def FV.expF (o : SimOracle) : FV → FV
  | FV.fin a => FV.fin (o.exp a)
  | FV.pinf => FV.pinf
  | FV.ninf => FV.fin 0
  | FV.nan => FV.nan

/-- np.log on float values (log 0 = -inf, log of a negative value = NaN,
log(inf) = inf); positive finite arguments go to the oracle. -/
def FV.logF (o : SimOracle) : FV → FV
  | FV.fin a => if 0 < a then FV.fin (o.log a) else if a = 0 then FV.ninf else FV.nan
  | FV.pinf => FV.pinf
  | FV.ninf => FV.nan
  | FV.nan => FV.nan

/-- Float ** (1/3) as used by calc_diameter (negative base gives NaN);
nonnegative finite arguments go to the oracle. -/
def FV.cbrtF (o : SimOracle) : FV → FV
  | FV.fin a => if a < 0 then FV.nan else FV.fin (o.cbrt a)
  | FV.pinf => FV.pinf
  | FV.ninf => FV.nan
  | FV.nan => FV.nan

/-- IEEE strict comparison (any comparison with NaN is false). -/
def FV.flt : FV → FV → Bool
  | FV.nan, _ => false
  | _, FV.nan => false
  | FV.fin a, FV.fin b => decide (a < b)
  | FV.fin _, FV.pinf => true
  | FV.fin _, FV.ninf => false
  | FV.pinf, FV.fin _ => false
  | FV.ninf, FV.fin _ => true
  | FV.pinf, FV.pinf => false
  | FV.ninf, FV.ninf => false
  | FV.ninf, FV.pinf => true
  | FV.pinf, FV.ninf => false

/-- IEEE non-strict comparison (any comparison with NaN is false). -/
def FV.fle : FV → FV → Bool
  | FV.nan, _ => false
  | _, FV.nan => false
  | FV.fin a, FV.fin b => decide (a ≤ b)
  | FV.fin _, FV.pinf => true
  | FV.fin _, FV.ninf => false
  | FV.pinf, FV.fin _ => false
  | FV.ninf, FV.fin _ => true
  | FV.pinf, FV.pinf => true
  | FV.ninf, FV.ninf => true
  | FV.ninf, FV.pinf => true
  | FV.pinf, FV.ninf => false

/-- np.isnan. -/
def FV.isnan : FV → Bool
  | FV.nan => true
  | _ => false

/-- np.maximum (NaN propagates). -/
def FV.maxF : FV → FV → FV
  | FV.nan, _ => FV.nan
  | _, FV.nan => FV.nan
  | FV.fin a, FV.fin b => FV.fin (max a b)
  | FV.pinf, _ => FV.pinf
  | _, FV.pinf => FV.pinf
  | FV.ninf, x => x
  | x, FV.ninf => x

/-- np.minimum (NaN propagates). -/
def FV.minF : FV → FV → FV
  | FV.nan, _ => FV.nan
  | _, FV.nan => FV.nan
  | FV.fin a, FV.fin b => FV.fin (min a b)
  | FV.ninf, _ => FV.ninf
  | _, FV.ninf => FV.ninf
  | FV.pinf, x => x
  | x, FV.pinf => x

/-- np.clip(x, 0, hi) = np.minimum(np.maximum(x, 0), hi). -/
def FV.clip0 (x : FV) (hi : ℚ) : FV := FV.minF (FV.maxF x (FV.fin 0)) (FV.fin hi)

/-- Sum of a list of float values (np .sum over a 1-d slice). -/
def FV.sumF : List FV → FV
  | [] => FV.fin 0
  | x :: xs => x + FV.sumF xs

/-- Pointwise update of a float-valued time-indexed array. -/
def updF (f : ℕ → FV) (k : ℕ) (x : FV) : ℕ → FV :=
  fun j => if j = k then x else f j

/-! ## simulate_sequence_test

Multi-step horizon counterfactual generator.  The per-patient noise
array is np.random.randn(num_time_steps + 20); it is modelled as a List
of given length and every noise access goes through List.get?, so an
out-of-bounds read (numpy IndexError) surfaces as a none result of the
whole routine.  All other per-patient rv arrays have length
num_time_steps and are only read at indices < num_time_steps, so they
are modelled as total functions.  Volumes are FV float values: the
projected counterfactual volumes are not clipped and the routine
discards a branch exactly when np.isnan(...).any() holds. -/

/-- Source value 1e-07 used in the projected volume recurrence. -/
def seqEps : ℚ := 1 / 10 ^ (7 : ℕ)

/-- One output row of simulate_sequence_test; pid and currentT are the
source's patient_ids_all_trajectories and patient_current_t entries. -/
structure SeqRow where
  vol : ℕ → FV
  capp : ℕ → ℚ
  rapp : ℕ → ℚ
  seqLen : ℕ
  ptype : ℚ
  pid : ℕ
  currentT : ℕ

instance : Inhabited SeqRow :=
  ⟨{ vol := fun _ => FV.fin 0, capp := fun _ => 0, rapp := fun _ => 0,
     seqLen := 0, ptype := 0, pid := 0, currentT := 0 }⟩

/-- Per-patient random draws of simulate_sequence_test. -/
structure SeqDraws where
  noise : List ℚ
  recovery_rvs : ℕ → ℚ
  chemo_rvs : ℕ → ℚ
  radio_rvs : ℕ → ℚ

/-- Factual per-patient state of simulate_sequence_test. -/
structure SeqFact where
  vol : ℕ → FV
  cdos : ℕ → ℚ
  rdos : ℕ → ℚ
  capp : ℕ → ℚ
  rapp : ℕ → ℚ
  cprob : ℕ → FV
  rprob : ℕ → FV

/-- calc_diameter on a float value. -/
def fvDiameter (o : SimOracle) (v : FV) : FV :=
  FV.cbrtF o (v / FV.fin (4 / 3 * o.pi)) * FV.fin 2

/-- The metric of simulate_sequence_test at patient i, step t: mean
diameter over the slice cancer_volume[i, max(t - window_size, 0) : t+1]
of the big output array. -/
def seqMetric (o : SimOracle) (rows : List SeqRow) (i w t : ℕ) : FV :=
  FV.sumF ((List.range (t + 1 - (t - w))).map
      fun j => fvDiameter o ((rows.getD i default).vol (t - w + j)))
    / FV.fin ((t + 1 - (t - w) : ℕ) : ℚ)

/-- Sigmoid probability on float values. -/
def fvSigmoid (o : SimOracle) (beta intercept : ℚ) (metric : FV) : FV :=
  FV.fin 1 / (FV.fin 1 + FV.expF o (-(FV.fin beta * (metric - FV.fin intercept))))

/-- The projection-buffer state of one counterfactual branch:
counterfactual_cancer_volume (length t+1+H+1) and the application /
dosage buffers (length t+1+H). -/
structure ProjState where
  vol : ℕ → FV
  capp : ℕ → ℚ
  rapp : ℕ → ℚ
  cdos : ℕ → ℚ
  rdos : ℕ → ℚ

/-- Initial projection buffers at decision time t: zero buffers with the
factual entries [:t+2] (volume) and [:t+1] (applications, dosages)
copied in. -/
def projInit (fa : SeqFact) (t : ℕ) : ProjState :=
  { vol := fun j => if j < t + 2 then fa.vol j else FV.fin 0
    capp := fun j => if j < t + 1 then fa.capp j else 0
    rapp := fun j => if j < t + 1 then fa.rapp j else 0
    cdos := fun j => if j < t + 1 then fa.cdos j else 0
    rdos := fun j => if j < t + 1 then fa.rdos j else 0 }

/-- One projection step (loop body over projection_time): applies the
action sequence entry, updates dosages, and advances the unclipped
projected volume with noise[current_t + 1], where
current_t = t + 1 + projection_time. -/
def projStep (o : SimOracle) (p : PatientParams) (opt : ℕ → ℕ × ℕ)
    (noise : List ℚ) (t ptime : ℕ) (ps : ProjState) : Option ProjState :=
  let current_t := t + 1 + ptime
  let prev : ℚ := ps.cdos (current_t - 1)
  let cd : ℚ := if (opt ptime).1 = 1 then chemo_amt else 0
  let rd : ℚ := if (opt ptime).2 = 1 then radio_amt else 0
  let capp2 := if (opt ptime).1 = 1 then upd ps.capp current_t 1 else ps.capp
  let rapp2 := if (opt ptime).2 = 1 then upd ps.rapp current_t 1 else ps.rapp
  let cdos2 := upd ps.cdos current_t (prev * chemo_decay o + cd)
  let rdos2 := upd ps.rdos current_t rd
  match noise.get? (current_t + 1) with
  | none => none
  | some nz =>
    let newV : FV := ps.vol current_t *
      (FV.fin 1
        + FV.fin p.rho
          * FV.logF o (FV.fin p.Kcap / (ps.vol current_t + FV.fin seqEps) + FV.fin seqEps)
        - FV.fin (p.beta_c * cdos2 current_t)
        - FV.fin (p.alpha * rdos2 current_t + p.beta * rdos2 current_t ^ (2 : ℕ))
        + FV.fin nz)
    some { vol := updF ps.vol (current_t + 1) newV
           capp := capp2, rapp := rapp2, cdos := cdos2, rdos := rdos2 }

/-- The projection loop over projection_time = 0 .. H-1. -/
def projLoop (o : SimOracle) (p : PatientParams) (opt : ℕ → ℕ × ℕ)
    (noise : List ℚ) (t : ℕ) : ℕ → ℕ → ProjState → Option ProjState
  | 0 => fun _ptime ps => some ps
  | fuel + 1 => fun ptime ps =>
    match projStep o p opt noise t ptime ps with
    | none => none
    | some ps2 => projLoop o p opt noise t fuel (ptime + 1) ps2

/-- The complete projection buffer of one branch at decision time t. -/
def projBranch (o : SimOracle) (p : PatientParams) (opt : ℕ → ℕ × ℕ)
    (noise : List ℚ) (t H : ℕ) (fa : SeqFact) : Option ProjState :=
  projLoop o p opt noise t H 0 (projInit fa t)

/-- np.isnan(counterfactual_cancer_volume).any() over the buffer of
length t + 1 + H + 1. -/
def anyNaNBuf (v : ℕ → FV) (n : ℕ) : Bool :=
  (List.range n).any fun j => FV.isnan (v j)

/-- An emitted sequence-test row: buffer contents [: t+1+H+1] (volume)
and [: t+1+H] (applications) written onto zero rows, with
sequence_lengths[test_idx] = int(t) + 2. -/
def seqMkRow (t H : ℕ) (ps : ProjState) (ptype : ℚ) (i : ℕ) : SeqRow :=
  { vol := fun j => if j < t + 1 + H + 1 then ps.vol j else FV.fin 0
    capp := fun j => if j < t + 1 + H then ps.capp j else 0
    rapp := fun j => if j < t + 1 + H then ps.rapp j else 0
    seqLen := t + 2
    ptype := ptype
    pid := i
    currentT := t }

/-- The inner loop over treatment_options: project each branch, discard
it when its volume buffer contains a NaN, otherwise append its row. -/
def seqOptLoop (o : SimOracle) (p : PatientParams) (noise : List ℚ)
    (t H : ℕ) (ptype : ℚ) (i : ℕ) (fa : SeqFact) :
    List (ℕ → ℕ × ℕ) → List SeqRow → Option (List SeqRow)
  | [], rows => some rows
  | opt :: rest, rows =>
    match projBranch o p opt noise t H fa with
    | none => none
    | some ps =>
      if anyNaNBuf ps.vol (t + 1 + H + 1)
      then seqOptLoop o p noise t H ptype i fa rest rows
      else seqOptLoop o p noise t H ptype i fa rest (rows ++ [seqMkRow t H ps ptype i])

/-- Factual step of simulate_sequence_test at time t (reads
noise[t + 1]; the metric reads row i of the big output array; the
clipped next volume uses np.log(K / V(t)) with no epsilon). -/
def seqFactStep (o : SimOracle) (p : PatientParams) (d : SeqDraws)
    (w : ℕ) (rows : List SeqRow) (i : ℕ) (fa : SeqFact) (t : ℕ) : Option SeqFact :=
  match d.noise.get? (t + 1) with
  | none => none
  | some nz =>
    let metric := seqMetric o rows i w t
    let cprob := fvSigmoid o p.chemo_sigmoid_beta p.chemo_sigmoid_intercept metric
    let rprob := fvSigmoid o p.radio_sigmoid_beta p.radio_sigmoid_intercept metric
    let chemoApplied : Bool := FV.flt (FV.fin (d.chemo_rvs t)) cprob
    let radioApplied : Bool := FV.flt (FV.fin (d.radio_rvs t)) rprob
    let prev : ℚ := if t = 0 then 0 else fa.cdos (t - 1)
    let cdosT : ℚ := prev * chemo_decay o + (if chemoApplied then chemo_amt else 0)
    let rdosT : ℚ := if radioApplied then radio_amt else 0
    let newRaw : FV := fa.vol t *
      (FV.fin 1
        + FV.fin p.rho * FV.logF o (FV.fin p.Kcap / fa.vol t)
        - FV.fin (p.beta_c * cdosT)
        - FV.fin (p.alpha * rdosT + p.beta * rdosT ^ (2 : ℕ))
        + FV.fin nz)
    some { vol := updF fa.vol (t + 1) (FV.clip0 newRaw (tumour_death_threshold o))
           cdos := upd fa.cdos t cdosT
           rdos := if radioApplied then upd fa.rdos t radio_amt else fa.rdos
           capp := if chemoApplied then upd fa.capp t 1 else fa.capp
           rapp := if radioApplied then upd fa.rapp t 1 else fa.rapp
           cprob := updF fa.cprob t cprob
           rprob := updF fa.rprob t rprob }

/-- End-of-iteration break test of simulate_sequence_test:
factual_cancer_volume[t+1] >= tumour_death_threshold or
recovery_rvs[t] <= exp(-factual_cancer_volume[t+1] * tumour_cell_density),
IEEE comparisons. -/
def seqBreakCond (o : SimOracle) (d : SeqDraws) (fa2 : SeqFact) (t : ℕ) : Bool :=
  FV.fle (FV.fin (tumour_death_threshold o)) (fa2.vol (t + 1))
    || FV.fle (FV.fin (d.recovery_rvs t))
        (FV.expF o (-(fa2.vol (t + 1) * FV.fin tumour_cell_density)))

/-- Time loop of simulate_sequence_test for one patient. -/
def seqLoop (o : SimOracle) (p : PatientParams) (d : SeqDraws)
    (w H : ℕ) (options : List (ℕ → ℕ × ℕ)) (i : ℕ) :
    ℕ → ℕ → List SeqRow → SeqFact → Option (List SeqRow × SeqFact)
  | 0 => fun _t rows fa => some (rows, fa)
  | fuel + 1 => fun t rows fa =>
    match seqFactStep o p d w rows i fa t with
    | none => none
    | some fa2 =>
      match seqOptLoop o p d.noise t H p.patient_type i fa2 options rows with
      | none => none
      | some rows2 =>
        if seqBreakCond o d fa2 t then some (rows2, fa2)
        else seqLoop o p d w H options i fuel (t + 1) rows2 fa2

/-- Initial factual state of one patient of simulate_sequence_test:
zero arrays with factual_cancer_volume[0] = initial_volumes[i]. -/
def seqFactInit (p : PatientParams) : SeqFact :=
  { vol := updF (fun _ => FV.fin 0) 0 (FV.fin p.initial_volume)
    cdos := fun _ => 0, rdos := fun _ => 0, capp := fun _ => 0
    rapp := fun _ => 0, cprob := fun _ => FV.fin 0, rprob := fun _ => FV.fin 0 }

/-- One patient of simulate_sequence_test. -/
def seqPatient (o : SimOracle) (p : PatientParams) (d : SeqDraws)
    (w T H : ℕ) (options : List (ℕ → ℕ × ℕ)) (i : ℕ)
    (rows : List SeqRow) : Option (List SeqRow × SeqFact) :=
  seqLoop o p d w H options i (T - 1) 0 rows (seqFactInit p)

/-- Patient loop of simulate_sequence_test. -/
def seqRunAux (o : SimOracle) (params : ℕ → PatientParams)
    (draws : ℕ → SeqDraws) (w T H : ℕ) (options : List (ℕ → ℕ × ℕ)) :
    ℕ → ℕ → List SeqRow → Option (List SeqRow)
  | 0 => fun _i rows => some rows
  | n + 1 => fun i rows =>
    match seqPatient o (params i) (draws i) w T H options i rows with
    | none => none
    | some r => seqRunAux o params draws w T H options n (i + 1) r.1

/-- Source simulate_sequence_test over a cohort; returns none when a
noise access is out of bounds (numpy IndexError). -/
def simulate_sequence_test (o : SimOracle) (params : ℕ → PatientParams)
    (draws : ℕ → SeqDraws) (w T H P : ℕ)
    (options : List (ℕ → ℕ × ℕ)) : Option (List SeqRow) :=
  seqRunAux o params draws w T H options P 0 []

/-! ## Specification-side definitions and invariant predicates -/

/-- The spec wording's policy metric: the mean tumor diameter over the
trailing n entries of the volume series ending at (and including)
index t. -/
def trailing_diameter_mean (o : SimOracle) (vol : ℕ → ℚ) (t n : ℕ) : ℚ :=
  (((List.range n).map fun j => calc_diameter o (vol (t + 1 - n + j))).sum) / (n : ℚ)

/-- All per-time arrays are zero from index t on (volume from t + 1 on,
as the volume written by iteration t lands at index t + 1). -/
def ZeroFrom (a : SimArrays) (t : ℕ) : Prop :=
  (∀ j, t ≤ j → a.cdos j = 0 ∧ a.rdos j = 0 ∧ a.capp j = 0 ∧ a.rapp j = 0
      ∧ a.cprob j = 0 ∧ a.rprob j = 0)
  ∧ ∀ j, t + 1 ≤ j → a.vol j = 0

/-- Volume entries up to index n lie in [0, tumour_death_threshold]. -/
def VolIn (o : SimOracle) (a : SimArrays) (n : ℕ) : Prop :=
  ∀ j, j ≤ n → 0 ≤ a.vol j ∧ a.vol j ≤ tumour_death_threshold o

/-! ## Concrete instances used to evaluate the embedding -/

/-- A concrete oracle for evaluation: exp is the indicator of the
nonnegative axis (so exp 0 = 1 and exp x >= 1 for x >= 0), log and the
cube root are simple rational functions, pi is 3. -/
def oEval : SimOracle :=
  { exp := fun x => if x < 0 then 0 else 1
    log := fun _ => 0
    cbrt := fun x => x
    pi := 3 }

/-- A concrete oracle whose exp distinguishes the argument -10
(used to observe which metric the policy consumed). -/
def oMetric : SimOracle :=
  { exp := fun x => if x = -10 then 7 else 1
    log := fun _ => 0
    cbrt := fun x => x
    pi := 3 }

/-- An inert patient: unit initial volume, all growth and kill
coefficients zero, flat policy (sigmoid slopes zero). -/
def pBase : PatientParams :=
  { initial_volume := 1, alpha := 0, rho := 0, beta := 0, beta_c := 0,
    Kcap := 13500, patient_type := 1,
    chemo_sigmoid_intercept := 0, radio_sigmoid_intercept := 0,
    chemo_sigmoid_beta := 0, radio_sigmoid_beta := 0 }

/-- pBase with a unit chemo kill coefficient. -/
def pChemoHeavy : PatientParams := { pBase with beta_c := 1 }

/-- pBase with a unit tumor growth coefficient rho. -/
def pRho : PatientParams := { pBase with rho := 1 }

/-- A patient for observing the policy metric: initial volume 8 and a
unit sigmoid slope on both treatments. -/
def pMetricDemo : PatientParams :=
  { pBase with initial_volume := 8, chemo_sigmoid_beta := 1, radio_sigmoid_beta := 1 }

/-- Quiet draws: no noise, recovery rvs 1/2, application rvs 3/4
(no application at probability 1/2). -/
def dQuiet : PatientDraws :=
  { noise := fun _ => 0, recovery_rvs := fun _ => 1/2,
    chemo_rvs := fun _ => 3/4, radio_rvs := fun _ => 3/4 }

/-- Draws with a single chemo application at step 0. -/
def dChemoOnce : PatientDraws :=
  { dQuiet with chemo_rvs := fun t => if t = 0 then 1/4 else 3/4 }

/-- Draws with one large noise value at step 0 so that the volume series
is non-constant (8 then 32). -/
def dMetricDemo : PatientDraws :=
  { noise := fun t => if t = 0 then 3 else 0, recovery_rvs := fun _ => 1,
    chemo_rvs := fun _ => 3/4, radio_rvs := fun _ => 3/4 }

/-- Sequence-test draws: noise list of length 2 + 20 (num_time_steps = 2)
whose entry 2 drives the first projected volume to exactly -1e-7, after
which the projected recurrence divides by zero and the buffer reaches
-inf without ever being NaN. -/
def sdEvil : SeqDraws :=
  { noise := [0, 0, -(1 + seqEps), 0, 0, 0, 0, 0, 0, 0, 0, 0, 0, 0, 0, 0, 0, 0, 0, 0, 0, 0]
    recovery_rvs := fun _ => 1/2, chemo_rvs := fun _ => 3/4, radio_rvs := fun _ => 3/4 }

/-- The all-zero action sequence (no treatment at any projected step). -/
def optZero : ℕ → ℕ × ℕ := fun _ => (0, 0)

/-- A single all-zero action sequence for the sequence-test horizon. -/
def optSingle : List (ℕ → ℕ × ℕ) := [optZero]

/-- Concrete run of simulate: one inert patient, two time steps. -/
def simQuiet : SimPath := simulatePatient oEval pBase dQuiet none 15 2

/-- Concrete run of simulate with one chemo application, three steps. -/
def simChemoOnce : SimPath := simulatePatient oEval pBase dChemoOnce none 15 3

/-- Concrete run of simulate with window_size 1 and a non-constant
volume series, three steps. -/
def simMetricDemo : SimPath := simulatePatient oMetric pMetricDemo dMetricDemo none 1 3

/-- Concrete run of simulate under get_confounding_params with both
confounding coefficients zero. -/
def simConf0 : SimPath :=
  simulatePatient oEval (get_confounding_params oEval pBase 0 0) dQuiet none 15 2

/-- Concrete run of simulate_counterfactual_test_data: one patient with
a unit chemo kill coefficient, two time steps. -/
def cfDemo : List CFRow × List SimArrays :=
  simulate_counterfactual_test_data oEval (fun _ => pChemoHeavy) (fun _ => dQuiet) 15 2 1

/-- Concrete run of simulate_sequence_test: one patient, two time steps,
horizon 2, a single all-zero action sequence, and the sdEvil noise. -/
def seqDemo : Option (List SeqRow) :=
  simulate_sequence_test oEval (fun _ => pRho) (fun _ => sdEvil) 15 2 2 1 optSingle

/-! ## Lemmas about simulate -/

section SimulateLemmas

variable (o : SimOracle) (p : PatientParams) (d : PatientDraws)
variable (asg : Option (ℕ → ℚ × ℚ)) (w : ℕ)

theorem simLoop_seqLen_eq (fuel : ℕ) : ∀ t a,
    (simLoop o p d asg w fuel t a).seqLen = (simLoop o p d asg w fuel t a).tStop + 1 := by
  induction fuel with
  | zero => intro t a; rfl
  | succ n ih =>
    intro t a
    rcases h : simStep o p d asg w a t with ⟨a2, k⟩
    cases k
    · simp only [simLoop, h]
      exact ih (t + 1) a2
    · simp only [simLoop, h]

theorem simLoop_tStop_le (fuel : ℕ) : ∀ t a,
    (simLoop o p d asg w fuel t a).tStop ≤ t + fuel - 1 := by
  induction fuel with
  | zero => intro t a; simp only [simLoop]; omega
  | succ n ih =>
    intro t a
    rcases h : simStep o p d asg w a t with ⟨a2, k⟩
    cases k
    · simp only [simLoop, h]
      have := ih (t + 1) a2
      omega
    · simp only [simLoop, h]
      omega

theorem simStep_break_ne_censored (a : SimArrays) (t : ℕ) (k : Outcome)
    (h : (simStep o p d asg w a t).2 = some k) : k ≠ Outcome.censored := by
  simp only [simStep, simBrk] at h
  split_ifs at h <;>
    first
    | exact Option.noConfusion h
    | (obtain rfl := (Option.some.inj h).symm; decide)

theorem simLoop_censored_tStop (fuel : ℕ) : ∀ t a,
    (simLoop o p d asg w fuel t a).outcome = Outcome.censored →
    (simLoop o p d asg w fuel t a).tStop = t + fuel - 1 := by
  induction fuel with
  | zero => intro t a _h; simp only [simLoop]; omega
  | succ n ih =>
    intro t a h
    rcases hs : simStep o p d asg w a t with ⟨a2, k⟩
    cases k with
    | none =>
      simp only [simLoop, hs] at h ⊢
      have := ih (t + 1) a2 h
      omega
    | some k =>
      exfalso
      have hk := simStep_break_ne_censored o p d asg w a t k (by rw [hs])
      simp only [simLoop, hs] at h
      exact hk h

theorem simStep_vol_low (a : SimArrays) (t j : ℕ) (h : j ≠ t + 1) :
    (simStep o p d asg w a t).1.vol j = a.vol j := by
  simp [simStep, upd, h]

theorem simStep_others_low (a : SimArrays) (t j : ℕ) (h : j ≠ t) :
    (simStep o p d asg w a t).1.cdos j = a.cdos j
    ∧ (simStep o p d asg w a t).1.rdos j = a.rdos j
    ∧ (simStep o p d asg w a t).1.capp j = a.capp j
    ∧ (simStep o p d asg w a t).1.rapp j = a.rapp j
    ∧ (simStep o p d asg w a t).1.cprob j = a.cprob j
    ∧ (simStep o p d asg w a t).1.rprob j = a.rprob j := by
  simp only [simStep]
  refine ⟨by simp [upd, h], ?_, ?_, ?_, by simp [upd, h], by simp [upd, h]⟩ <;>
    (split <;> simp [upd, h])

theorem simLoop_frame (fuel : ℕ) : ∀ t a,
    (∀ j, j ≤ t → (simLoop o p d asg w fuel t a).arr.vol j = a.vol j)
    ∧ ∀ j, j < t →
        (simLoop o p d asg w fuel t a).arr.cdos j = a.cdos j
        ∧ (simLoop o p d asg w fuel t a).arr.rdos j = a.rdos j
        ∧ (simLoop o p d asg w fuel t a).arr.capp j = a.capp j
        ∧ (simLoop o p d asg w fuel t a).arr.rapp j = a.rapp j
        ∧ (simLoop o p d asg w fuel t a).arr.cprob j = a.cprob j
        ∧ (simLoop o p d asg w fuel t a).arr.rprob j = a.rprob j := by
  induction fuel with
  | zero =>
    intro t a
    exact ⟨fun j _ => rfl, fun j _ => ⟨rfl, rfl, rfl, rfl, rfl, rfl⟩⟩
  | succ n ih =>
    intro t a
    rcases hs : simStep o p d asg w a t with ⟨a2, k⟩
    have ha2 : a2 = (simStep o p d asg w a t).1 := by rw [hs]
    cases k with
    | some k =>
      simp only [simLoop, hs]
      constructor
      · intro j hj
        rw [ha2, simStep_vol_low o p d asg w a t j (by omega)]
      · intro j hj
        rw [ha2]
        exact simStep_others_low o p d asg w a t j (by omega)
    | none =>
      simp only [simLoop, hs]
      constructor
      · intro j hj
        rw [(ih (t + 1) a2).1 j (by omega), ha2,
          simStep_vol_low o p d asg w a t j (by omega)]
      · intro j hj
        have h1 := (ih (t + 1) a2).2 j (by omega)
        have h2 := simStep_others_low o p d asg w a t j (by omega)
        rw [← ha2] at h2
        exact ⟨h1.1.trans h2.1, h1.2.1.trans h2.2.1, h1.2.2.1.trans h2.2.2.1,
          h1.2.2.2.1.trans h2.2.2.2.1, h1.2.2.2.2.1.trans h2.2.2.2.2.1,
          h1.2.2.2.2.2.trans h2.2.2.2.2.2⟩

theorem ZeroFrom_mono {a : SimArrays} {t t2 : ℕ} (ht : t ≤ t2) (h : ZeroFrom a t) :
    ZeroFrom a t2 :=
  ⟨fun j hj => h.1 j (le_trans ht hj), fun j hj => h.2 j (by omega)⟩

theorem simStep_zeroFrom (a : SimArrays) (t : ℕ) (hz : ZeroFrom a t) :
    ZeroFrom (simStep o p d asg w a t).1 (t + 1) := by
  constructor
  · intro j hj
    have h := simStep_others_low o p d asg w a t j (by omega)
    have h0 := hz.1 j (by omega)
    exact ⟨h.1.trans h0.1, h.2.1.trans h0.2.1, h.2.2.1.trans h0.2.2.1,
      h.2.2.2.1.trans h0.2.2.2.1, h.2.2.2.2.1.trans h0.2.2.2.2.1,
      h.2.2.2.2.2.trans h0.2.2.2.2.2⟩
  · intro j hj
    rw [simStep_vol_low o p d asg w a t j (by omega)]
    exact hz.2 j (by omega)

theorem simLoop_zeroFrom (fuel : ℕ) : ∀ t a, ZeroFrom a t →
    ZeroFrom (simLoop o p d asg w fuel t a).arr
      ((simLoop o p d asg w fuel t a).tStop + 1) := by
  induction fuel with
  | zero =>
    intro t a hz
    simp only [simLoop]
    exact ZeroFrom_mono (by omega) hz
  | succ n ih =>
    intro t a hz
    rcases hs : simStep o p d asg w a t with ⟨a2, k⟩
    have ha2 : a2 = (simStep o p d asg w a t).1 := by rw [hs]
    cases k with
    | some k =>
      simp only [simLoop, hs]
      rw [ha2]
      exact simStep_zeroFrom o p d asg w a t hz
    | none =>
      simp only [simLoop, hs]
      refine ih (t + 1) a2 ?_
      rw [ha2]
      exact simStep_zeroFrom o p d asg w a t hz

theorem tumour_cell_density_pos : (0 : ℚ) < tumour_cell_density := by
  norm_num [tumour_cell_density]

theorem simStep_volIn (a : SimArrays) (t : ℕ)
    (hrv : 0 ≤ d.recovery_rvs (t + 1) ∧ d.recovery_rvs (t + 1) < 1)
    (hexp : ∀ x, 0 ≤ x → 1 ≤ o.exp x)
    (hthr : 0 ≤ tumour_death_threshold o)
    (h : VolIn o a t) : VolIn o (simStep o p d asg w a t).1 (t + 1) := by
  intro j hj
  by_cases hj2 : j = t + 1
  · subst hj2
    have hvol : (simStep o p d asg w a t).1.vol (t + 1)
        = simStoredVol o p d asg w a t := by
      simp [simStep, upd]
    rw [hvol]
    unfold simStoredVol
    split_ifs with h1 h2
    · exact ⟨hthr, le_refl _⟩
    · exact ⟨le_refl 0, hthr⟩
    · refine ⟨?_, not_lt.mp h1⟩
      by_contra hneg
      push_neg at hneg
      have hd := tumour_cell_density_pos
      have harg : 0 ≤ -(simNewVol o p d asg w a t * tumour_cell_density) := by
        nlinarith
      have h1e := hexp _ harg
      have h2e := not_lt.mp h2
      have := hrv.2
      linarith
  · rw [simStep_vol_low o p d asg w a t j hj2]
    exact h j (by omega)

theorem simLoop_volIn (fuel : ℕ) : ∀ t a, (1 ≤ fuel ∨ 1 ≤ t) →
    (∀ s, 0 ≤ d.recovery_rvs s ∧ d.recovery_rvs s < 1) →
    (∀ x, 0 ≤ x → 1 ≤ o.exp x) →
    0 ≤ tumour_death_threshold o →
    VolIn o a t →
    VolIn o (simLoop o p d asg w fuel t a).arr
      ((simLoop o p d asg w fuel t a).tStop + 1) := by
  induction fuel with
  | zero =>
    intro t a hg hrv hexp hthr h
    have ht : 1 ≤ t := by omega
    simp only [simLoop]
    intro j hj
    exact h j (by omega)
  | succ n ih =>
    intro t a _hg hrv hexp hthr h
    rcases hs : simStep o p d asg w a t with ⟨a2, k⟩
    have ha2 : a2 = (simStep o p d asg w a t).1 := by rw [hs]
    cases k with
    | some k =>
      simp only [simLoop, hs]
      rw [ha2]
      exact simStep_volIn o p d asg w a t (hrv (t + 1)) hexp hthr h
    | none =>
      simp only [simLoop, hs]
      refine ih (t + 1) a2 (Or.inr (by omega)) hrv hexp hthr ?_
      rw [ha2]
      exact simStep_volIn o p d asg w a t (hrv (t + 1)) hexp hthr h

theorem simLoop_exec (fuel : ℕ) : ∀ t a s, (1 ≤ fuel ∨ 1 ≤ t) → ZeroFrom a t →
    t ≤ s → s ≤ (simLoop o p d asg w fuel t a).tStop →
    ∃ as : SimArrays, ZeroFrom as s
      ∧ (∀ j, j ≤ s → as.vol j = (simLoop o p d asg w fuel t a).arr.vol j)
      ∧ (∀ j, j < s → as.cdos j = (simLoop o p d asg w fuel t a).arr.cdos j)
      ∧ (simLoop o p d asg w fuel t a).arr.cprob s = (simStep o p d asg w as s).1.cprob s
      ∧ (simLoop o p d asg w fuel t a).arr.rprob s = (simStep o p d asg w as s).1.rprob s
      ∧ (simLoop o p d asg w fuel t a).arr.cdos s = (simStep o p d asg w as s).1.cdos s
      ∧ (simLoop o p d asg w fuel t a).arr.capp s = (simStep o p d asg w as s).1.capp s := by
  induction fuel with
  | zero =>
    intro t a s hg _hz h1 h2
    simp only [simLoop] at h2
    omega
  | succ n ih =>
    intro t a s _hg hz h1 h2
    rcases hs : simStep o p d asg w a t with ⟨a2, k⟩
    have ha2 : a2 = (simStep o p d asg w a t).1 := by rw [hs]
    cases k with
    | some k =>
      simp only [simLoop, hs] at h2 ⊢
      have hst : s = t := by omega
      subst hst
      exact ⟨a, hz, fun j hj => by rw [ha2, simStep_vol_low o p d asg w a s j (by omega)],
        fun j hj => by rw [ha2, (simStep_others_low o p d asg w a s j (by omega)).1],
        by rw [ha2], by rw [ha2], by rw [ha2], by rw [ha2]⟩
    | none =>
      simp only [simLoop, hs] at h2 ⊢
      by_cases hst : s = t
      · subst hst
        have hfr := simLoop_frame o p d asg w n (s + 1) a2
        refine ⟨a, hz, ?_, ?_, ?_, ?_, ?_, ?_⟩
        · intro j hj
          rw [hfr.1 j (by omega), ha2, simStep_vol_low o p d asg w a s j (by omega)]
        · intro j hj
          rw [(hfr.2 j (by omega)).1, ha2,
            (simStep_others_low o p d asg w a s j (by omega)).1]
        · rw [(hfr.2 s (by omega)).2.2.2.2.1, ha2]
        · rw [(hfr.2 s (by omega)).2.2.2.2.2, ha2]
        · rw [(hfr.2 s (by omega)).1, ha2]
        · rw [(hfr.2 s (by omega)).2.2.1, ha2]
      · refine ih (t + 1) a2 s (Or.inr (by omega)) ?_ (by omega) h2
        rw [ha2]
        exact simStep_zeroFrom o p d asg w a t hz

theorem simStep_cprob_none (a : SimArrays) (t : ℕ) :
    (simStep o p d none w a t).1.cprob t
      = sigmoid_prob o p.chemo_sigmoid_beta p.chemo_sigmoid_intercept
          (cancer_metric_used o a.vol w t) := by
  simp [simStep, upd, simChemoProb]

theorem simStep_rprob_none (a : SimArrays) (t : ℕ) :
    (simStep o p d none w a t).1.rprob t
      = sigmoid_prob o p.radio_sigmoid_beta p.radio_sigmoid_intercept
          (cancer_metric_used o a.vol w t) := by
  simp [simStep, upd, simRadioProb]

theorem simStep_cdos_self (a : SimArrays) (t : ℕ) :
    (simStep o p d asg w a t).1.cdos t = simChemoDoseT o p d asg w a t := by
  simp [simStep, upd]

theorem simStep_capp_self (a : SimArrays) (t : ℕ) :
    (simStep o p d asg w a t).1.capp t
      = if simChemoApplied o p d asg w a t then 1 else a.capp t := by
  cases hb : simChemoApplied o p d asg w a t <;> simp [simStep, hb, upd]

theorem cancer_metric_used_congr (v v2 : ℕ → ℚ) (w t : ℕ)
    (h : ∀ j, j ≤ t → v j = v2 j) :
    cancer_metric_used o v w t = cancer_metric_used o v2 w t := by
  unfold cancer_metric_used
  congr 2
  refine List.map_congr_left ?_
  intro j hj
  rw [List.mem_range] at hj
  rw [h (t - w + j) (by omega)]

theorem cancer_metric_used_eq_trailing (v : ℕ → ℚ) (w t : ℕ) :
    cancer_metric_used o v w t = trailing_diameter_mean o v t (min (w + 1) (t + 1)) := by
  unfold cancer_metric_used trailing_diameter_mean
  have h2 : t + 1 - min (w + 1) (t + 1) = t - w := by omega
  have h1 : t + 1 - (t - w) = min (w + 1) (t + 1) := by omega
  rw [h2, h1]

end SimulateLemmas

/-! ## Lemmas about simulate_counterfactual_test_data -/

section CFLemmas

variable (o : SimOracle) (p : PatientParams) (d : PatientDraws)
variable (w : ℕ) (pt : ℚ) (i : ℕ)

theorem cfFactUpdate_vol_low (rows : List CFRow) (fa : SimArrays) (t j : ℕ)
    (h : j ≠ t + 1) :
    (cfFactUpdate o p d rows i w fa t).vol j = fa.vol j := by
  simp [cfFactUpdate, upd, h]

theorem cfFactUpdate_low (rows : List CFRow) (fa : SimArrays) (t j : ℕ)
    (h : j ≠ t) :
    (cfFactUpdate o p d rows i w fa t).cdos j = fa.cdos j
    ∧ (cfFactUpdate o p d rows i w fa t).rdos j = fa.rdos j
    ∧ (cfFactUpdate o p d rows i w fa t).capp j = fa.capp j
    ∧ (cfFactUpdate o p d rows i w fa t).rapp j = fa.rapp j
    ∧ (cfFactUpdate o p d rows i w fa t).cprob j = fa.cprob j
    ∧ (cfFactUpdate o p d rows i w fa t).rprob j = fa.rprob j := by
  simp only [cfFactUpdate]
  refine ⟨by simp [upd, h], ?_, ?_, ?_, by simp [upd, h], by simp [upd, h]⟩ <;>
    (split <;> simp [upd, h])

theorem cfFactUpdate_zeroFrom (rows : List CFRow) (fa : SimArrays) (t : ℕ)
    (hz : ZeroFrom fa t) : ZeroFrom (cfFactUpdate o p d rows i w fa t) (t + 1) := by
  constructor
  · intro j hj
    have h0 := hz.1 j (by omega)
    have h := cfFactUpdate_low o p d w i rows fa t j (by omega)
    exact ⟨h.1.trans h0.1, h.2.1.trans h0.2.1, h.2.2.1.trans h0.2.2.1,
      h.2.2.2.1.trans h0.2.2.2.1, h.2.2.2.2.1.trans h0.2.2.2.2.1,
      h.2.2.2.2.2.trans h0.2.2.2.2.2⟩
  · intro j hj
    rw [cfFactUpdate_vol_low o p d w i rows fa t j (by omega)]
    exact hz.2 j (by omega)

theorem cfFactUpdate_volIn (rows : List CFRow) (fa : SimArrays) (t : ℕ)
    (hthr : 0 ≤ tumour_death_threshold o)
    (h : VolIn o fa t) : VolIn o (cfFactUpdate o p d rows i w fa t) (t + 1) := by
  intro j hj
  by_cases hj2 : j = t + 1
  · subst hj2
    have : (cfFactUpdate o p d rows i w fa t).vol (t + 1)
        = cfNewVol o p d rows i w fa t := by
      simp [cfFactUpdate, upd]
    rw [this]
    unfold cfNewVol
    constructor
    · exact le_min (le_max_right _ _) hthr
    · exact min_le_right _ _
  · rw [cfFactUpdate_vol_low o p d w i rows fa t j hj2]
    exact h j (by omega)

theorem cfStepRows_snd (rows : List CFRow) (fa : SimArrays) (t : ℕ) :
    (cfStepRows o p d w pt i rows fa t).2 = cfFactUpdate o p d rows i w fa t := rfl

theorem cfStepRows_fst (rows : List CFRow) (fa : SimArrays) (t : ℕ) :
    (cfStepRows o p d w pt i rows fa t).1
      = rows ++ [cfFactualRow pt i t (cfFactUpdate o p d rows i w fa t)]
        ++ (cf_treatment_options.filterMap fun opt =>
            if (cfFactUpdate o p d rows i w fa t).capp t = opt.1
                ∧ (cfFactUpdate o p d rows i w fa t).rapp t = opt.2 then none
            else some (cfBranchRow o p d pt i t (cfFactUpdate o p d rows i w fa t) opt)) := rfl

theorem cfLoop_succ (n t : ℕ) (rows : List CFRow) (fa : SimArrays) :
    cfLoop o p d w pt i (n + 1) t rows fa
      = if cfBreakCond o d (cfStepRows o p d w pt i rows fa t).2 t
        then cfStepRows o p d w pt i rows fa t
        else cfLoop o p d w pt i n (t + 1)
          (cfStepRows o p d w pt i rows fa t).1
          (cfStepRows o p d w pt i rows fa t).2 := rfl

theorem cfLoop_fa_frame (fuel : ℕ) : ∀ t rows fa,
    (∀ j, j ≤ t → (cfLoop o p d w pt i fuel t rows fa).2.vol j = fa.vol j)
    ∧ ∀ j, j < t →
        (cfLoop o p d w pt i fuel t rows fa).2.cdos j = fa.cdos j
        ∧ (cfLoop o p d w pt i fuel t rows fa).2.capp j = fa.capp j
        ∧ (cfLoop o p d w pt i fuel t rows fa).2.rapp j = fa.rapp j := by
  induction fuel with
  | zero =>
    intro t rows fa
    exact ⟨fun j _ => rfl, fun j _ => ⟨rfl, rfl, rfl⟩⟩
  | succ n ih =>
    intro t rows fa
    rw [cfLoop_succ]
    split
    · rw [cfStepRows_snd]
      constructor
      · intro j hj
        exact cfFactUpdate_vol_low o p d w i rows fa t j (by omega)
      · intro j hj
        have h := cfFactUpdate_low o p d w i rows fa t j (by omega)
        exact ⟨h.1, h.2.2.1, h.2.2.2.1⟩
    · constructor
      · intro j hj
        rw [(ih (t + 1) (cfStepRows o p d w pt i rows fa t).1
            (cfStepRows o p d w pt i rows fa t).2).1 j (by omega), cfStepRows_snd]
        exact cfFactUpdate_vol_low o p d w i rows fa t j (by omega)
      · intro j hj
        have h1 := (ih (t + 1) (cfStepRows o p d w pt i rows fa t).1
            (cfStepRows o p d w pt i rows fa t).2).2 j (by omega)
        rw [cfStepRows_snd] at h1
        have h2 := cfFactUpdate_low o p d w i rows fa t j (by omega)
        exact ⟨h1.1.trans h2.1, h1.2.1.trans h2.2.2.1, h1.2.2.trans h2.2.2.2.1⟩

theorem cfLoop_rows_mono (fuel : ℕ) : ∀ t rows fa,
    rows.length ≤ (cfLoop o p d w pt i fuel t rows fa).1.length
    ∧ ∀ r, r < rows.length →
        (cfLoop o p d w pt i fuel t rows fa).1.getD r default = rows.getD r default := by
  induction fuel with
  | zero =>
    intro t rows fa
    exact ⟨le_refl _, fun r _ => rfl⟩
  | succ n ih =>
    intro t rows fa
    rw [cfLoop_succ]
    split
    · rw [cfStepRows_fst]
      constructor
      · simp
      · intro r hr
        rw [List.append_assoc, List.getD_append _ _ _ _ hr]
    · have ihh := ih (t + 1) (cfStepRows o p d w pt i rows fa t).1
        (cfStepRows o p d w pt i rows fa t).2
      constructor
      · refine le_trans ?_ ihh.1
        rw [cfStepRows_fst]
        simp
      · intro r hr
        rw [ihh.2 r (by rw [cfStepRows_fst]; simp; omega), cfStepRows_fst,
          List.append_assoc, List.getD_append _ _ _ _ hr]

theorem cfStepRows_mem_facts (rows : List CFRow) (fa : SimArrays) (t : ℕ)
    (hz : ZeroFrom fa t) :
    ∀ rw ∈ [cfFactualRow pt i t (cfFactUpdate o p d rows i w fa t)]
        ++ (cf_treatment_options.filterMap fun opt =>
            if (cfFactUpdate o p d rows i w fa t).capp t = opt.1
                ∧ (cfFactUpdate o p d rows i w fa t).rapp t = opt.2 then none
            else some (cfBranchRow o p d pt i t (cfFactUpdate o p d rows i w fa t) opt)),
      rw.patient = i ∧ rw.decisionT = t ∧ rw.seqLen = t + 1
      ∧ (rw.isBranch = true → ∀ j, j ≤ t →
          rw.vol j = (cfFactUpdate o p d rows i w fa t).vol j)
      ∧ (∀ j, t + 1 < j → rw.vol j = 0)
      ∧ (∀ j, t + 1 ≤ j → rw.capp j = 0 ∧ rw.rapp j = 0)
      ∧ (0 ≤ tumour_death_threshold o → VolIn o fa t → rw.isBranch = false →
          ∀ j, 0 ≤ rw.vol j ∧ rw.vol j ≤ tumour_death_threshold o)
      ∧ (0 ≤ tumour_death_threshold o → VolIn o fa t → rw.isBranch = true →
          ∀ j, j ≠ t + 1 →
            0 ≤ rw.vol j ∧ rw.vol j ≤ tumour_death_threshold o) := by
  have hz2 := cfFactUpdate_zeroFrom o p d w i rows fa t hz
  intro rw hm
  rcases List.mem_append.mp hm with hf | hb
  · -- the factual row
    rw [List.mem_singleton] at hf
    subst hf
    refine ⟨rfl, rfl, rfl, ?_, ?_, ?_, ?_, ?_⟩
    · intro hB
      exact absurd hB (by simp [cfFactualRow])
    · intro j hj
      exact hz2.2 j (by omega)
    · intro j hj
      have := hz2.1 j hj
      exact ⟨this.2.2.1, this.2.2.2.1⟩
    · intro hthr hvr _ j
      have hvr2 := cfFactUpdate_volIn o p d w i rows fa t hthr hvr
      by_cases hj : j ≤ t + 1
      · exact hvr2 j hj
      · have h0 : (cfFactUpdate o p d rows i w fa t).vol j = 0 := hz2.2 j (by omega)
        simp only [cfFactualRow]
        rw [h0]
        exact ⟨le_refl 0, hthr⟩
    · intro _ _ hB
      exact absurd hB (by simp [cfFactualRow])
  · -- a branch row
    rw [List.mem_filterMap] at hb
    obtain ⟨opt, _hopt, heq⟩ := hb
    split at heq
    · exact absurd heq (by simp)
    · have hw : rw = cfBranchRow o p d pt i t (cfFactUpdate o p d rows i w fa t) opt :=
        (Option.some.inj heq).symm
      subst hw
      refine ⟨rfl, rfl, rfl, ?_, ?_, ?_, ?_, ?_⟩
      · intro _ j hj
        simp [cfBranchRow, hj]
      · intro j hj
        simp [cfBranchRow, show ¬ j ≤ t from by omega, show j ≠ t + 1 from by omega]
      · intro j hj
        constructor <;>
          simp [cfBranchRow, show ¬ j < t from by omega, show j ≠ t from by omega]
      · intro _ _ hB
        exact absurd hB (by simp [cfBranchRow])
      · intro hthr hvr _ j hj
        have hvr2 := cfFactUpdate_volIn o p d w i rows fa t hthr hvr
        by_cases hj2 : j ≤ t
        · have : (cfBranchRow o p d pt i t (cfFactUpdate o p d rows i w fa t) opt).vol j
              = (cfFactUpdate o p d rows i w fa t).vol j := by
            simp [cfBranchRow, hj2]
          rw [this]
          exact hvr2 j (by omega)
        · have : (cfBranchRow o p d pt i t (cfFactUpdate o p d rows i w fa t) opt).vol j
              = 0 := by
            simp [cfBranchRow, hj2, hj]
          rw [this]
          exact ⟨le_refl 0, hthr⟩

theorem cfStepRows_new_getD (rows : List CFRow) (fa : SimArrays) (t r : ℕ)
    (h1 : rows.length ≤ r) (h2 : r < (cfStepRows o p d w pt i rows fa t).1.length) :
    (cfStepRows o p d w pt i rows fa t).1.getD r default
      ∈ [cfFactualRow pt i t (cfFactUpdate o p d rows i w fa t)]
        ++ (cf_treatment_options.filterMap fun opt =>
            if (cfFactUpdate o p d rows i w fa t).capp t = opt.1
                ∧ (cfFactUpdate o p d rows i w fa t).rapp t = opt.2 then none
            else some (cfBranchRow o p d pt i t (cfFactUpdate o p d rows i w fa t) opt)) := by
  rw [cfStepRows_fst] at h2 ⊢
  rw [List.append_assoc] at h2 ⊢
  rw [List.getD_append_right _ _ _ _ h1]
  have hlen : r - rows.length
      < ([cfFactualRow pt i t (cfFactUpdate o p d rows i w fa t)]
        ++ (cf_treatment_options.filterMap fun opt =>
            if (cfFactUpdate o p d rows i w fa t).capp t = opt.1
                ∧ (cfFactUpdate o p d rows i w fa t).rapp t = opt.2 then none
            else some (cfBranchRow o p d pt i t (cfFactUpdate o p d rows i w fa t) opt))).length := by
    rw [List.length_append] at h2
    omega
  rw [List.getD_eq_getElem _ _ hlen]
  exact List.getElem_mem hlen

theorem cfLoop_new_rows (fuel : ℕ) : ∀ t rows fa, ZeroFrom fa t →
    ∀ r, rows.length ≤ r → r < (cfLoop o p d w pt i fuel t rows fa).1.length →
      ((cfLoop o p d w pt i fuel t rows fa).1.getD r default).patient = i
      ∧ ((cfLoop o p d w pt i fuel t rows fa).1.getD r default).seqLen
          = ((cfLoop o p d w pt i fuel t rows fa).1.getD r default).decisionT + 1
      ∧ t ≤ ((cfLoop o p d w pt i fuel t rows fa).1.getD r default).decisionT
      ∧ (((cfLoop o p d w pt i fuel t rows fa).1.getD r default).isBranch = true →
          ∀ j, j ≤ ((cfLoop o p d w pt i fuel t rows fa).1.getD r default).decisionT →
            ((cfLoop o p d w pt i fuel t rows fa).1.getD r default).vol j
              = (cfLoop o p d w pt i fuel t rows fa).2.vol j)
      ∧ (∀ j, ((cfLoop o p d w pt i fuel t rows fa).1.getD r default).seqLen < j →
          ((cfLoop o p d w pt i fuel t rows fa).1.getD r default).vol j = 0)
      ∧ (∀ j, ((cfLoop o p d w pt i fuel t rows fa).1.getD r default).seqLen ≤ j →
          ((cfLoop o p d w pt i fuel t rows fa).1.getD r default).capp j = 0
          ∧ ((cfLoop o p d w pt i fuel t rows fa).1.getD r default).rapp j = 0)
      ∧ (0 ≤ tumour_death_threshold o → VolIn o fa t →
          ((cfLoop o p d w pt i fuel t rows fa).1.getD r default).isBranch = false →
          ∀ j, 0 ≤ ((cfLoop o p d w pt i fuel t rows fa).1.getD r default).vol j
            ∧ ((cfLoop o p d w pt i fuel t rows fa).1.getD r default).vol j
                ≤ tumour_death_threshold o)
      ∧ (0 ≤ tumour_death_threshold o → VolIn o fa t →
          ((cfLoop o p d w pt i fuel t rows fa).1.getD r default).isBranch = true →
          ∀ j, j ≠ ((cfLoop o p d w pt i fuel t rows fa).1.getD r default).decisionT + 1 →
            0 ≤ ((cfLoop o p d w pt i fuel t rows fa).1.getD r default).vol j
            ∧ ((cfLoop o p d w pt i fuel t rows fa).1.getD r default).vol j
                ≤ tumour_death_threshold o) := by
  induction fuel with
  | zero =>
    intro t rows fa _hz r h1 h2
    exact absurd h2 (by simp only [cfLoop]; omega)
  | succ n ih =>
    intro t rows fa hz r h1 h2
    have hmem := cfStepRows_mem_facts o p d w pt i rows fa t hz
    rw [cfLoop_succ] at h2 ⊢
    by_cases hbr : cfBreakCond o d (cfStepRows o p d w pt i rows fa t).2 t = true
    · rw [if_pos hbr] at h2 ⊢
      have hget := cfStepRows_new_getD o p d w pt i rows fa t r h1 h2
      have hfacts := hmem _ hget
      rw [cfStepRows_snd]
      exact ⟨hfacts.1, by rw [hfacts.2.2.1, hfacts.2.1], by omega,
        fun hB j hj => hfacts.2.2.2.1 hB j (by omega),
        fun j hj => hfacts.2.2.2.2.1 j (by omega),
        fun j hj => hfacts.2.2.2.2.2.1 j (by omega),
        fun hthr hvr => hfacts.2.2.2.2.2.2.1 hthr hvr,
        fun hthr hvr hB j hj => hfacts.2.2.2.2.2.2.2 hthr hvr hB j (by omega)⟩
    · rw [if_neg hbr] at h2 ⊢
      by_cases hr2 : (cfStepRows o p d w pt i rows fa t).1.length ≤ r
      · -- a row emitted by a later iteration
        have hz2 : ZeroFrom (cfStepRows o p d w pt i rows fa t).2 (t + 1) := by
          rw [cfStepRows_snd]
          exact cfFactUpdate_zeroFrom o p d w i rows fa t hz
        have hvr2 : 0 ≤ tumour_death_threshold o → VolIn o fa t →
            VolIn o (cfStepRows o p d w pt i rows fa t).2 (t + 1) := by
          intro hthr hvr
          rw [cfStepRows_snd]
          exact cfFactUpdate_volIn o p d w i rows fa t hthr hvr
        have := ih (t + 1) (cfStepRows o p d w pt i rows fa t).1
          (cfStepRows o p d w pt i rows fa t).2 hz2 r hr2 h2
        exact ⟨this.1, this.2.1, by omega, this.2.2.2.1, this.2.2.2.2.1,
          this.2.2.2.2.2.1,
          fun hthr hvr => this.2.2.2.2.2.2.1 hthr (hvr2 hthr hvr),
          fun hthr hvr => this.2.2.2.2.2.2.2 hthr (hvr2 hthr hvr)⟩
      · -- a row emitted by this iteration, preserved by the rest of the loop
        push_neg at hr2
        have hpres := (cfLoop_rows_mono o p d w pt i n (t + 1)
          (cfStepRows o p d w pt i rows fa t).1 (cfStepRows o p d w pt i rows fa t).2).2 r hr2
        rw [hpres]
        have hget := cfStepRows_new_getD o p d w pt i rows fa t r h1 hr2
        have hfacts := hmem _ hget
        have hframe := (cfLoop_fa_frame o p d w pt i n (t + 1)
          (cfStepRows o p d w pt i rows fa t).1 (cfStepRows o p d w pt i rows fa t).2).1
        refine ⟨hfacts.1, by rw [hfacts.2.2.1, hfacts.2.1], by omega, ?_,
          fun j hj => hfacts.2.2.2.2.1 j (by omega),
          fun j hj => hfacts.2.2.2.2.2.1 j (by omega),
          fun hthr hvr => hfacts.2.2.2.2.2.2.1 hthr hvr,
          fun hthr hvr hB j hj => hfacts.2.2.2.2.2.2.2 hthr hvr hB j (by omega)⟩
        intro hB j hj
        rw [hfacts.2.1] at hj
        rw [hfacts.2.2.2.1 hB j hj, hframe j (by omega), cfStepRows_snd]

theorem cfInitArrays_zeroFrom :
    ZeroFrom { SimArrays.zero with vol := upd (fun _ => 0) 0 p.initial_volume } 0 := by
  constructor
  · intro j _
    exact ⟨rfl, rfl, rfl, rfl, rfl, rfl⟩
  · intro j hj
    simp [SimArrays.zero, upd, show j ≠ 0 from by omega]

theorem cfInitArrays_volIn
    (hvol : 0 ≤ p.initial_volume ∧ p.initial_volume ≤ tumour_death_threshold o) :
    VolIn o { SimArrays.zero with vol := upd (fun _ => 0) 0 p.initial_volume } 0 := by
  intro j hj
  have : j = 0 := by omega
  subst this
  simpa [SimArrays.zero, upd] using hvol

theorem cfPatient_rows_mono (T : ℕ) (rows : List CFRow) :
    rows.length ≤ (cfPatient o p d w T i rows).1.length
    ∧ ∀ r, r < rows.length →
        (cfPatient o p d w T i rows).1.getD r default = rows.getD r default :=
  cfLoop_rows_mono o p d w p.patient_type i (T - 1) 0 rows _

theorem cfPatient_new_rows (T : ℕ) (rows : List CFRow) :
    ∀ r, rows.length ≤ r → r < (cfPatient o p d w T i rows).1.length →
      ((cfPatient o p d w T i rows).1.getD r default).patient = i
      ∧ ((cfPatient o p d w T i rows).1.getD r default).seqLen
          = ((cfPatient o p d w T i rows).1.getD r default).decisionT + 1
      ∧ (((cfPatient o p d w T i rows).1.getD r default).isBranch = true →
          ∀ j, j ≤ ((cfPatient o p d w T i rows).1.getD r default).decisionT →
            ((cfPatient o p d w T i rows).1.getD r default).vol j
              = (cfPatient o p d w T i rows).2.vol j)
      ∧ (∀ j, ((cfPatient o p d w T i rows).1.getD r default).seqLen < j →
          ((cfPatient o p d w T i rows).1.getD r default).vol j = 0)
      ∧ (∀ j, ((cfPatient o p d w T i rows).1.getD r default).seqLen ≤ j →
          ((cfPatient o p d w T i rows).1.getD r default).capp j = 0
          ∧ ((cfPatient o p d w T i rows).1.getD r default).rapp j = 0)
      ∧ (0 ≤ tumour_death_threshold o →
          0 ≤ p.initial_volume ∧ p.initial_volume ≤ tumour_death_threshold o →
          ((cfPatient o p d w T i rows).1.getD r default).isBranch = false →
          ∀ j, 0 ≤ ((cfPatient o p d w T i rows).1.getD r default).vol j
            ∧ ((cfPatient o p d w T i rows).1.getD r default).vol j
                ≤ tumour_death_threshold o)
      ∧ (0 ≤ tumour_death_threshold o →
          0 ≤ p.initial_volume ∧ p.initial_volume ≤ tumour_death_threshold o →
          ((cfPatient o p d w T i rows).1.getD r default).isBranch = true →
          ∀ j, j ≠ ((cfPatient o p d w T i rows).1.getD r default).decisionT + 1 →
            0 ≤ ((cfPatient o p d w T i rows).1.getD r default).vol j
            ∧ ((cfPatient o p d w T i rows).1.getD r default).vol j
                ≤ tumour_death_threshold o) := by
  intro r h1 h2
  have h := cfLoop_new_rows o p d w p.patient_type i (T - 1) 0 rows _
    (cfInitArrays_zeroFrom p) r h1 h2
  exact ⟨h.1, h.2.1, h.2.2.2.1, h.2.2.2.2.1, h.2.2.2.2.2.1,
    fun hthr hvol => h.2.2.2.2.2.2.1 hthr (cfInitArrays_volIn o p hvol),
    fun hthr hvol => h.2.2.2.2.2.2.2 hthr (cfInitArrays_volIn o p hvol)⟩

end CFLemmas

section CFCohort

variable (o : SimOracle) (params : ℕ → PatientParams) (draws : ℕ → PatientDraws)
variable (w T : ℕ)

theorem cfRunAux_succ (n k : ℕ) (st : List CFRow × List SimArrays) :
    cfRunAux o params draws w T (n + 1) k st
      = cfRunAux o params draws w T n (k + 1)
          ((cfPatient o (params k) (draws k) w T k st.1).1,
           st.2 ++ [(cfPatient o (params k) (draws k) w T k st.1).2]) := rfl

/-- Generic transfer of a per-row property along the patient loop. -/
theorem cfRunAux_pred (Q : CFRow → Prop)
    (hnew : ∀ k rows r, rows.length ≤ r →
      r < (cfPatient o (params k) (draws k) w T k rows).1.length →
      Q ((cfPatient o (params k) (draws k) w T k rows).1.getD r default)) :
    ∀ n k st, (∀ r, r < st.1.length → Q (st.1.getD r default)) →
      ∀ r, r < (cfRunAux o params draws w T n k st).1.length →
        Q ((cfRunAux o params draws w T n k st).1.getD r default) := by
  intro n
  induction n with
  | zero => intro k st h r hr; exact h r hr
  | succ m ih =>
    intro k st h r hr
    rw [cfRunAux_succ] at hr ⊢
    refine ih (k + 1) _ ?_ r hr
    intro r2 hr2
    by_cases hlt : r2 < st.1.length
    · rw [(cfPatient_rows_mono o (params k) (draws k) w k T st.1).2 r2 hlt]
      exact h r2 hlt
    · exact hnew k st.1 r2 (by omega) hr2

/-- Counterfactual branch rows agree with their patient's factual arrays
on the shared prefix, along the patient loop. -/
theorem cfRunAux_good :
    ∀ n k st, st.2.length = k →
      (∀ r, r < st.1.length →
        (st.1.getD r default).patient < st.2.length
        ∧ ((st.1.getD r default).isBranch = true →
            ∀ j, j ≤ (st.1.getD r default).decisionT →
              (st.1.getD r default).vol j
                = (st.2.getD (st.1.getD r default).patient default).vol j)) →
      (∀ r, r < (cfRunAux o params draws w T n k st).1.length →
        ((cfRunAux o params draws w T n k st).1.getD r default).patient
            < (cfRunAux o params draws w T n k st).2.length
        ∧ (((cfRunAux o params draws w T n k st).1.getD r default).isBranch = true →
            ∀ j, j ≤ ((cfRunAux o params draws w T n k st).1.getD r default).decisionT →
              ((cfRunAux o params draws w T n k st).1.getD r default).vol j
                = ((cfRunAux o params draws w T n k st).2.getD
                    ((cfRunAux o params draws w T n k st).1.getD r default).patient
                    default).vol j)) := by
  intro n
  induction n with
  | zero => intro k st _hk h r hr; exact h r hr
  | succ m ih =>
    intro k st hk h r hr
    rw [cfRunAux_succ] at hr ⊢
    refine ih (k + 1) _ (by simp [hk]) ?_ r hr
    intro r2 hr2
    by_cases hlt : r2 < st.1.length
    · rw [(cfPatient_rows_mono o (params k) (draws k) w k T st.1).2 r2 hlt]
      have hold := h r2 hlt
      constructor
      · simp only [List.length_append, List.length_singleton]
        omega
      · intro hB j hj
        rw [List.getD_append _ _ _ _ (hold.1)]
        exact hold.2 hB j hj
    · have hnew := cfPatient_new_rows o (params k) (draws k) w k T st.1
        r2 (by omega) hr2
      constructor
      · rw [hnew.1]
        simp only [List.length_append, List.length_singleton]
        omega
      · intro hB j hj
        rw [hnew.1, List.getD_append_right _ _ _ _ hk.le,
          show k - st.2.length = 0 from by omega]
        simpa using hnew.2.2.1 hB j hj

end CFCohort

/-! ## Lemmas about simulate_sequence_test -/

section SeqLemmas

variable (o : SimOracle) (p : PatientParams) (noise : List ℚ)
variable (t H : ℕ) (pt : ℚ) (i : ℕ) (fa : SeqFact)

theorem projStep_isSome (opt : ℕ → ℕ × ℕ) (ptime : ℕ) (ps : ProjState)
    (h : t + 1 + ptime + 1 < noise.length) :
    ∃ ps2, projStep o p opt noise t ptime ps = some ps2 := by
  obtain ⟨x, hx⟩ : ∃ x, noise.get? (t + 1 + ptime + 1) = some x := by
    rw [List.get?_eq_get h]
    exact ⟨_, rfl⟩
  simp only [projStep, hx]
  exact ⟨_, rfl⟩

theorem projLoop_isSome (opt : ℕ → ℕ × ℕ) : ∀ fuel ptime ps,
    (fuel = 0 ∨ t + ptime + fuel + 1 < noise.length) →
    ∃ ps2, projLoop o p opt noise t fuel ptime ps = some ps2 := by
  intro fuel
  induction fuel with
  | zero => intro ptime ps _h; exact ⟨ps, rfl⟩
  | succ n ih =>
    intro ptime ps h
    have hlt : t + 1 + ptime + 1 < noise.length := by omega
    obtain ⟨ps2, hps2⟩ := projStep_isSome o p noise t opt ptime ps hlt
    simp only [projLoop, hps2]
    exact ih (ptime + 1) ps2 (by omega)

theorem projBranch_isSome (opt : ℕ → ℕ × ℕ)
    (h : H = 0 ∨ t + H + 1 < noise.length) :
    ∃ ps, projBranch o p opt noise t H fa = some ps := by
  unfold projBranch
  exact projLoop_isSome o p noise t opt H 0 (projInit fa t) (by omega)

theorem seqOptLoop_isSome : ∀ (opts : List (ℕ → ℕ × ℕ)) (rows : List SeqRow),
    (H = 0 ∨ t + H + 1 < noise.length) →
    ∃ rows2, seqOptLoop o p noise t H pt i fa opts rows = some rows2 := by
  intro opts
  induction opts with
  | nil => intro rows _h; exact ⟨rows, rfl⟩
  | cons opt rest ih =>
    intro rows h
    obtain ⟨ps, hps⟩ := projBranch_isSome o p noise t H fa opt h
    simp only [seqOptLoop, hps]
    split
    · exact ih rows h
    · exact ih _ h

/-- seqOptLoop appends exactly the rows of the NaN-free branches, in
option order: the loop is equivalent to a filterMap over the options. -/
theorem seqOptLoop_filterMap : ∀ (opts : List (ℕ → ℕ × ℕ)) (rows rows2 : List SeqRow),
    seqOptLoop o p noise t H pt i fa opts rows = some rows2 →
    rows2 = rows ++ opts.filterMap (fun opt =>
      match projBranch o p opt noise t H fa with
      | none => none
      | some ps =>
        if anyNaNBuf ps.vol (t + 1 + H + 1) then none
        else some (seqMkRow t H ps pt i)) := by
  intro opts
  induction opts with
  | nil =>
    intro rows rows2 h
    simp only [seqOptLoop] at h
    simp [← Option.some.inj h]
  | cons opt rest ih =>
    intro rows rows2 h
    rcases hpb : projBranch o p opt noise t H fa with _ | ps
    · rw [seqOptLoop, hpb] at h
      exact absurd h (by simp)
    · cases hnan : anyNaNBuf ps.vol (t + 1 + H + 1) with
      | true =>
        simp only [seqOptLoop, hpb, hnan, if_true] at h
        simp only [List.filterMap_cons, hpb, hnan, if_true]
        exact ih rows rows2 h
      | false =>
        simp only [seqOptLoop, hpb, hnan, Bool.false_eq_true, if_false] at h
        simp only [List.filterMap_cons, hpb, hnan, Bool.false_eq_true, if_false]
        rw [ih _ rows2 h]
        simp
/-- Every row appended by seqOptLoop is a seqMkRow instance, so a
property of all seqMkRow instances transfers. -/
theorem seqOptLoop_mem (Q : SeqRow → Prop)
    (hQ : ∀ ps, Q (seqMkRow t H ps pt i)) :
    ∀ (opts : List (ℕ → ℕ × ℕ)) (rows rows2 : List SeqRow),
      (∀ rw2 ∈ rows, Q rw2) →
      seqOptLoop o p noise t H pt i fa opts rows = some rows2 →
      ∀ rw2 ∈ rows2, Q rw2 := by
  intro opts rows rows2 hrows h rw2 hm
  rw [seqOptLoop_filterMap o p noise t H pt i fa opts rows rows2 h] at hm
  rcases List.mem_append.mp hm with h1 | h2
  · exact hrows rw2 h1
  · rw [List.mem_filterMap] at h2
    obtain ⟨opt, _, heq⟩ := h2
    rcases hpb : projBranch o p opt noise t H fa with _ | ps
    · simp only [hpb] at heq
      exact Option.noConfusion heq
    · simp only [hpb] at heq
      split at heq
      · exact absurd heq (by simp)
      · rw [← Option.some.inj heq]
        exact hQ ps

end SeqLemmas

section SeqPatientLemmas

variable (o : SimOracle) (p : PatientParams) (d : SeqDraws)
variable (w H : ℕ) (options : List (ℕ → ℕ × ℕ)) (i : ℕ)

theorem seqFactStep_isSome (rows : List SeqRow) (fa : SeqFact) (t : ℕ)
    (h : t + 1 < d.noise.length) :
    ∃ fa2, seqFactStep o p d w rows i fa t = some fa2 := by
  obtain ⟨x, hx⟩ : ∃ x, d.noise.get? (t + 1) = some x := by
    rw [List.get?_eq_get h]
    exact ⟨_, rfl⟩
  simp only [seqFactStep, hx]
  exact ⟨_, rfl⟩

theorem seqLoop_isSome : ∀ fuel t rows fa,
    (∀ s, t + 1 ≤ s → s ≤ t + fuel → s < d.noise.length) →
    (∀ s, s < t + fuel → (H = 0 ∨ s + H + 1 < d.noise.length)) →
    ∃ r, seqLoop o p d w H options i fuel t rows fa = some r := by
  intro fuel
  induction fuel with
  | zero => intro t rows fa _h1 _h2; exact ⟨(rows, fa), rfl⟩
  | succ n ih =>
    intro t rows fa h1 h2
    obtain ⟨fa2, hfa2⟩ := seqFactStep_isSome o p d w i rows fa t (h1 (t + 1) (by omega) (by omega))
    obtain ⟨rows2, hrows2⟩ := seqOptLoop_isSome o p d.noise t H p.patient_type i fa2 options rows
      (h2 t (by omega))

    simp only [seqLoop, hfa2, hrows2]
    split
    · exact ⟨_, rfl⟩
    · exact ih (t + 1) rows2 fa2 (fun s hs1 hs2 => h1 s (by omega) (by omega))
        (fun s hs => h2 s (by omega))

theorem seqLoop_mem (Q : SeqRow → Prop)
    (hQ : ∀ t ps, Q (seqMkRow t H ps p.patient_type i)) :
    ∀ fuel t rows fa r,
      (∀ rw2 ∈ rows, Q rw2) →
      seqLoop o p d w H options i fuel t rows fa = some r →
      ∀ rw2 ∈ r.1, Q rw2 := by
  intro fuel
  induction fuel with
  | zero =>
    intro t rows fa r hrows h
    simp only [seqLoop] at h
    rw [← Option.some.inj h]
    exact hrows
  | succ n ih =>
    intro t rows fa r hrows h
    rcases hfa2 : seqFactStep o p d w rows i fa t with _ | fa2
    · simp only [seqLoop, hfa2] at h
      exact Option.noConfusion h
    · rcases hrows2 : seqOptLoop o p d.noise t H p.patient_type i fa2 options rows with _ | rows2
      · simp only [seqLoop, hfa2, hrows2] at h
        exact Option.noConfusion h
      · have hall : ∀ rw2 ∈ rows2, Q rw2 :=
          seqOptLoop_mem o p d.noise t H p.patient_type i fa2 Q (hQ t) options rows rows2
            hrows hrows2
        simp only [seqLoop, hfa2, hrows2] at h
        split at h
        · rw [← Option.some.inj h]
          exact hall
        · exact ih (t + 1) rows2 fa2 r hall h

end SeqPatientLemmas

section SeqCohortLemmas

variable (o : SimOracle) (params : ℕ → PatientParams) (draws : ℕ → SeqDraws)
variable (w T H : ℕ) (options : List (ℕ → ℕ × ℕ))

theorem seqRunAux_isSome (hH : H ≤ 20)
    (hlen : ∀ k, (draws k).noise.length = T + 20) :
    ∀ n k rows, ∃ rows2, seqRunAux o params draws w T H options n k rows = some rows2 := by
  intro n
  induction n with
  | zero => intro k rows; exact ⟨rows, rfl⟩
  | succ m ih =>
    intro k rows
    obtain ⟨r, hr⟩ := seqLoop_isSome o (params k) (draws k) w H options k (T - 1) 0 rows
      (seqFactInit (params k))
      (fun s _hs1 hs2 => by rw [hlen k]; omega)
      (fun s hs => by
        rw [hlen k]
        right
        omega)
    simp only [seqRunAux, seqPatient, hr]
    exact ih (k + 1) r.1

theorem seqRunAux_mem (Q : SeqRow → Prop)
    (hQ : ∀ k t ps, Q (seqMkRow t H ps (params k).patient_type k)) :
    ∀ n k rows rows2,
      (∀ rw2 ∈ rows, Q rw2) →
      seqRunAux o params draws w T H options n k rows = some rows2 →
      ∀ rw2 ∈ rows2, Q rw2 := by
  intro n
  induction n with
  | zero =>
    intro k rows rows2 hrows h
    simp only [seqRunAux] at h
    rw [← Option.some.inj h]
    exact hrows
  | succ m ih =>
    intro k rows rows2 hrows h
    rcases hr : seqPatient o (params k) (draws k) w T H options k rows with _ | r
    · simp only [seqRunAux, hr] at h
      exact Option.noConfusion h
    · have hall : ∀ rw2 ∈ r.1, Q rw2 :=
        seqLoop_mem o (params k) (draws k) w H options k Q (hQ k) (T - 1) 0 rows _ r hrows hr
      simp only [seqRunAux, hr] at h
      exact ih (k + 1) r.1 rows2 hall h

end SeqCohortLemmas

/-- When some projection step's noise read is out of bounds (and all
earlier reads of the projection loop are in bounds), the projection loop
returns none: the numpy IndexError surfaces. -/
theorem projLoop_none (o : SimOracle) (p : PatientParams) (noise : List ℚ)
    (t : ℕ) (opt : ℕ → ℕ × ℕ) : ∀ fuel ptime ps k, k < fuel →
    noise.get? (t + 1 + ptime + k + 1) = none →
    (∀ k2, k2 < k → t + 1 + ptime + k2 + 1 < noise.length) →
    projLoop o p opt noise t fuel ptime ps = none := by
  intro fuel
  induction fuel with
  | zero => intro ptime ps k hk _ _; omega
  | succ n ih =>
    intro ptime ps k hk hnone hsome
    cases k with
    | zero =>
      have hnone2 : noise.get? (t + 1 + ptime + 1) = none := by
        have harg : t + 1 + ptime + 0 + 1 = t + 1 + ptime + 1 := by omega
        rw [harg] at hnone
        exact hnone
      have hps : projStep o p opt noise t ptime ps = none := by
        simp only [projStep, hnone2]
      simp only [projLoop, hps]
    | succ k2 =>
      have hlt : t + 1 + ptime + 1 < noise.length := by
        have := hsome 0 (by omega)
        omega
      obtain ⟨ps2, hps2⟩ := projStep_isSome o p noise t opt ptime ps hlt
      simp only [projLoop, hps2]
      refine ih (ptime + 1) ps2 k2 (by omega) ?_ ?_
      · have harg : t + 1 + (ptime + 1) + k2 + 1 = t + 1 + ptime + (k2 + 1) + 1 := by omega
        rw [harg]
        exact hnone
      · intro k3 hk3
        have := hsome (k3 + 1) (by omega)
        omega

/-! ## Claim theorems -/

/-- C10: in simulate, for every patient the stored sequence_length is at
most num_time_steps - 1; a patient censored at the horizon receives
sequence_length = num_time_steps - 1; and no volume entry is written at
any index strictly beyond sequence_length (so the last computed volume
entry sits at index sequence_length, never counted as a valid entry). -/
theorem claim_C10 (o : SimOracle) (p : PatientParams) (d : PatientDraws)
    (asg : Option (ℕ → ℚ × ℚ)) (w T : ℕ) (h2 : 2 ≤ T) :
    (simulatePatient o p d asg w T).seqLen ≤ T - 1
    ∧ ((simulatePatient o p d asg w T).outcome = Outcome.censored →
        (simulatePatient o p d asg w T).seqLen = T - 1)
    ∧ ∀ j, (simulatePatient o p d asg w T).seqLen < j →
        (simulatePatient o p d asg w T).arr.vol j = 0 := by
  unfold simulatePatient
  have hseq := simLoop_seqLen_eq o p d asg w (T - 1) 0
    { SimArrays.zero with vol := upd (fun _ => 0) 0 p.initial_volume }
  have hle := simLoop_tStop_le o p d asg w (T - 1) 0
    { SimArrays.zero with vol := upd (fun _ => 0) 0 p.initial_volume }
  have hz := simLoop_zeroFrom o p d asg w (T - 1) 0
    { SimArrays.zero with vol := upd (fun _ => 0) 0 p.initial_volume }
    (cfInitArrays_zeroFrom p)
  refine ⟨by omega, ?_, ?_⟩
  · intro hc
    have := simLoop_censored_tStop o p d asg w (T - 1) 0
      { SimArrays.zero with vol := upd (fun _ => 0) 0 p.initial_volume } hc
    omega
  · intro j hj
    exact hz.2 j (by omega)

/-- Bridge: every simulated step t of simulatePatient is produced by one
simStep application at some intermediate arrays that agree with the
final arrays below t. -/
theorem simulatePatient_exec (o : SimOracle) (p : PatientParams) (d : PatientDraws)
    (asg : Option (ℕ → ℚ × ℚ)) (w T t : ℕ) (h2 : 2 ≤ T)
    (ht : t < (simulatePatient o p d asg w T).seqLen) :
    ∃ as : SimArrays, ZeroFrom as t
      ∧ (∀ j, j ≤ t → as.vol j = (simulatePatient o p d asg w T).arr.vol j)
      ∧ (∀ j, j < t → as.cdos j = (simulatePatient o p d asg w T).arr.cdos j)
      ∧ (simulatePatient o p d asg w T).arr.cprob t = (simStep o p d asg w as t).1.cprob t
      ∧ (simulatePatient o p d asg w T).arr.rprob t = (simStep o p d asg w as t).1.rprob t
      ∧ (simulatePatient o p d asg w T).arr.cdos t = (simStep o p d asg w as t).1.cdos t
      ∧ (simulatePatient o p d asg w T).arr.capp t = (simStep o p d asg w as t).1.capp t := by
  unfold simulatePatient at ht ⊢
  have hseq := simLoop_seqLen_eq o p d asg w (T - 1) 0
    { SimArrays.zero with vol := upd (fun _ => 0) 0 p.initial_volume }
  exact simLoop_exec o p d asg w (T - 1) 0
    { SimArrays.zero with vol := upd (fun _ => 0) 0 p.initial_volume }
    t (Or.inl (by omega)) (cfInitArrays_zeroFrom p) (by omega) (by omega)

/-- C7: under get_confounding_params with chemo_coeff = radio_coeff = 0
(so both sigmoid slopes are 0), simulate assigns chemo and radio
probability exactly 1/2 to every patient at every simulated step,
whatever the metric; needs exp 0 = 1 for the oracle. -/
theorem claim_C7 (o : SimOracle) (basic : ℕ → PatientParams)
    (draws : ℕ → PatientDraws) (w T i t : ℕ)
    (hexp0 : o.exp 0 = 1) (h2 : 2 ≤ T)
    (ht : t < (simulateCohort o (fun k => get_confounding_params o (basic k) 0 0)
        draws none w T i).seqLen) :
    (simulateCohort o (fun k => get_confounding_params o (basic k) 0 0)
        draws none w T i).arr.cprob t = 1 / 2
    ∧ (simulateCohort o (fun k => get_confounding_params o (basic k) 0 0)
        draws none w T i).arr.rprob t = 1 / 2 := by
  have hred : simulateCohort o (fun k => get_confounding_params o (basic k) 0 0)
      draws none w T i
      = simulatePatient o (get_confounding_params o (basic i) 0 0) (draws i) none w T := rfl
  rw [hred] at ht ⊢
  have hcb : (get_confounding_params o (basic i) 0 0).chemo_sigmoid_beta = 0 := by
    simp [get_confounding_params]
  have hrb : (get_confounding_params o (basic i) 0 0).radio_sigmoid_beta = 0 := by
    simp [get_confounding_params]
  obtain ⟨as, _hzs, _hv, _hlow, hcp, hrp, _hcd, _hca⟩ :=
    simulatePatient_exec o (get_confounding_params o (basic i) 0 0) (draws i) none w T t h2 ht
  rw [hcp, hrp, simStep_cprob_none, simStep_rprob_none, hcb, hrb]
  unfold sigmoid_prob
  constructor
  · rw [show -(0 : ℚ) * (cancer_metric_used o as.vol w t
        - (get_confounding_params o (basic i) 0 0).chemo_sigmoid_intercept) = 0
        from by ring, hexp0]
    norm_num
  · rw [show -(0 : ℚ) * (cancer_metric_used o as.vol w t
        - (get_confounding_params o (basic i) 0 0).radio_sigmoid_intercept) = 0
        from by ring, hexp0]
    norm_num

/-- C6 (amended): in simulate, the treatment-policy metric at step t is
the mean tumor diameter over the trailing min(window_size + 1, t + 1)
entries inclusive of the current step (the slice
vol[max(t - window_size, 0) : t + 1] has window_size + 1 entries once
t >= window_size, not window_size), with diameter from the sphere
formula; the assignment probabilities are the sigmoid of that metric. -/
theorem claim_C6 (o : SimOracle) (p : PatientParams) (d : PatientDraws)
    (w T t : ℕ) (h2 : 2 ≤ T)
    (ht : t < (simulatePatient o p d none w T).seqLen) :
    (simulatePatient o p d none w T).arr.cprob t
      = sigmoid_prob o p.chemo_sigmoid_beta p.chemo_sigmoid_intercept
          (trailing_diameter_mean o (simulatePatient o p d none w T).arr.vol t
            (min (w + 1) (t + 1)))
    ∧ (simulatePatient o p d none w T).arr.rprob t
      = sigmoid_prob o p.radio_sigmoid_beta p.radio_sigmoid_intercept
          (trailing_diameter_mean o (simulatePatient o p d none w T).arr.vol t
            (min (w + 1) (t + 1))) := by
  obtain ⟨as, _hzs, hv, _hlow, hcp, hrp, _hcd, _hca⟩ :=
    simulatePatient_exec o p d none w T t h2 ht
  have hmet : cancer_metric_used o as.vol w t
      = trailing_diameter_mean o (simulatePatient o p d none w T).arr.vol t
          (min (w + 1) (t + 1)) := by
    rw [cancer_metric_used_congr o as.vol (simulatePatient o p d none w T).arr.vol w t hv,
      cancer_metric_used_eq_trailing]
  rw [hcp, hrp, simStep_cprob_none, simStep_rprob_none, hmet]
  exact ⟨rfl, rfl⟩

/-- C8: in simulate the chemo dosage decays with a one-day half life:
each simulated step multiplies the previous dosage by
exp(-ln 2 / drug_half_life) and adds the fresh dose (5.0 when applied,
0 otherwise); hence over k consecutive simulated steps with no chemo
application the dosage is multiplied by exp(-ln 2)^k. -/
theorem claim_C8 (o : SimOracle) (p : PatientParams) (d : PatientDraws)
    (asg : Option (ℕ → ℚ × ℚ)) (w T t k : ℕ) (h2 : 2 ≤ T)
    (hk : t + k < (simulatePatient o p d asg w T).seqLen)
    (happ : ∀ s, t + 1 ≤ s → s ≤ t + k →
      (simulatePatient o p d asg w T).arr.capp s = 0) :
    (simulatePatient o p d asg w T).arr.cdos (t + k)
      = (simulatePatient o p d asg w T).arr.cdos t * chemo_decay o ^ k := by
  induction k with
  | zero => simp
  | succ m ih =>
    have hcd := ih (by omega) (fun s h1 h3 => happ s h1 (by omega))
    obtain ⟨as, hzs, _hv, hlow, _hcp, _hrp, hcdos, hcapp⟩ :=
      simulatePatient_exec o p d asg w T (t + m + 1) h2 (by omega)
    have happ2 := happ (t + m + 1) (by omega) (by omega)
    rw [hcapp, simStep_capp_self] at happ2
    have hnotapp : ¬ simChemoApplied o p d asg w as (t + m + 1) = true := by
      intro hap
      rw [if_pos hap] at happ2
      norm_num at happ2
    rw [show t + (m + 1) = t + m + 1 from by omega, hcdos, simStep_cdos_self]
    unfold simChemoDoseT
    rw [if_neg hnotapp, if_neg (show ¬ t + m + 1 = 0 from by omega)]
    rw [show t + m + 1 - 1 = t + m from rfl, hlow (t + m) (by omega), hcd]
    ring

/-- C1: in simulate_counterfactual_test_data, every counterfactual
branch row emitted at decision time t agrees with its patient's factual
path (the final factual_cancer_volume array, returned as the second
component) on every volume entry at indices 0 through t. -/
theorem claim_C1 (o : SimOracle) (params : ℕ → PatientParams)
    (draws : ℕ → PatientDraws) (w T P r : ℕ)
    (hr : r < (simulate_counterfactual_test_data o params draws w T P).1.length)
    (hb : ((simulate_counterfactual_test_data o params draws w T P).1.getD r
        default).isBranch = true) :
    ∀ j, j ≤ ((simulate_counterfactual_test_data o params draws w T P).1.getD r
        default).decisionT →
      ((simulate_counterfactual_test_data o params draws w T P).1.getD r default).vol j
        = ((simulate_counterfactual_test_data o params draws w T P).2.getD
            ((simulate_counterfactual_test_data o params draws w T P).1.getD r
              default).patient default).vol j := by
  have h := cfRunAux_good o params draws w T P 0 ([], []) rfl
    (fun r2 hr2 => absurd hr2 (by simp)) r hr
  exact h.2 hb

/-- C2 (amended): in simulate_counterfactual_test_data, every
counterfactual branch row emitted at factual decision time t is stored
with sequence_lengths entry int(t) + 1, i.e. t + 1 (the shared prefix
length), not t + 2. -/
theorem claim_C2 (o : SimOracle) (params : ℕ → PatientParams)
    (draws : ℕ → PatientDraws) (w T P r : ℕ)
    (hr : r < (simulate_counterfactual_test_data o params draws w T P).1.length)
    (_hb : ((simulate_counterfactual_test_data o params draws w T P).1.getD r
        default).isBranch = true) :
    ((simulate_counterfactual_test_data o params draws w T P).1.getD r default).seqLen
      = ((simulate_counterfactual_test_data o params draws w T P).1.getD r
          default).decisionT + 1 := by
  refine cfRunAux_pred o params draws w T
    (fun rw2 => rw2.seqLen = rw2.decisionT + 1) ?_ P 0 ([], [])
    (fun r2 hr2 => absurd hr2 (by simp)) r hr
  intro k rows r2 h1 h2
  exact (cfPatient_new_rows o (params k) (draws k) w k T rows r2 h1 h2).2.1

/-- C3 (amended): padding above sequence_length.  In simulate, the
dosage, application and probability arrays are zero at every index at
or beyond sequence_length, and cancer_volume is zero strictly beyond
sequence_length (the entry at index sequence_length itself holds the
last computed volume and need not be zero).  The same holds for the
rows of simulate_counterfactual_test_data.  In simulate_sequence_test
rows, the horizon is projected beyond the stored sequence_length:
volume entries are zero only from sequence_length + projection_horizon
on, and applications from sequence_length + projection_horizon - 1 on. -/
theorem claim_C3 :
    (∀ (o : SimOracle) (params : ℕ → PatientParams) (draws : ℕ → PatientDraws)
        (asg : Option (ℕ → ℕ → ℚ × ℚ)) (w T i j : ℕ),
        ((simulateCohort o params draws asg w T i).seqLen ≤ j →
          (simulateCohort o params draws asg w T i).arr.cdos j = 0
          ∧ (simulateCohort o params draws asg w T i).arr.rdos j = 0
          ∧ (simulateCohort o params draws asg w T i).arr.capp j = 0
          ∧ (simulateCohort o params draws asg w T i).arr.rapp j = 0
          ∧ (simulateCohort o params draws asg w T i).arr.cprob j = 0
          ∧ (simulateCohort o params draws asg w T i).arr.rprob j = 0)
        ∧ ((simulateCohort o params draws asg w T i).seqLen < j →
          (simulateCohort o params draws asg w T i).arr.vol j = 0))
    ∧ (∀ (o : SimOracle) (params : ℕ → PatientParams) (draws : ℕ → PatientDraws)
        (w T P r : ℕ), r < (simulate_counterfactual_test_data o params draws w T P).1.length →
        (∀ j, ((simulate_counterfactual_test_data o params draws w T P).1.getD r
            default).seqLen ≤ j →
          ((simulate_counterfactual_test_data o params draws w T P).1.getD r default).capp j = 0
          ∧ ((simulate_counterfactual_test_data o params draws w T P).1.getD r default).rapp j = 0)
        ∧ (∀ j, ((simulate_counterfactual_test_data o params draws w T P).1.getD r
            default).seqLen < j →
          ((simulate_counterfactual_test_data o params draws w T P).1.getD r default).vol j = 0))
    ∧ (∀ (o : SimOracle) (params : ℕ → PatientParams) (draws : ℕ → SeqDraws)
        (w T H P : ℕ) (options : List (ℕ → ℕ × ℕ)) (rows2 : List SeqRow),
        simulate_sequence_test o params draws w T H P options = some rows2 →
        ∀ rw2 ∈ rows2,
          (∀ j, rw2.seqLen + H ≤ j → rw2.vol j = FV.fin 0)
          ∧ (∀ j, rw2.seqLen + H - 1 ≤ j → rw2.capp j = 0 ∧ rw2.rapp j = 0)) := by
  refine ⟨?_, ?_, ?_⟩
  · intro o params draws asg w T i j
    have hred : simulateCohort o params draws asg w T i
        = simLoop o (params i) (draws i) (asg.map fun f => f i) w (T - 1) 0
            { SimArrays.zero with vol := upd (fun _ => 0) 0 (params i).initial_volume } := rfl
    rw [hred]
    have hz := simLoop_zeroFrom o (params i) (draws i) (asg.map fun f => f i) w (T - 1) 0
      { SimArrays.zero with vol := upd (fun _ => 0) 0 (params i).initial_volume }
      (cfInitArrays_zeroFrom (params i))
    have hseq := simLoop_seqLen_eq o (params i) (draws i) (asg.map fun f => f i) w (T - 1) 0
      { SimArrays.zero with vol := upd (fun _ => 0) 0 (params i).initial_volume }
    constructor
    · intro hj
      exact hz.1 j (le_of_eq_of_le hseq.symm hj)
    · intro hj
      exact hz.2 j (lt_of_eq_of_lt hseq.symm hj)
  · intro o params draws w T P r hr
    refine cfRunAux_pred o params draws w T
      (fun rw2 => (∀ j, rw2.seqLen ≤ j → rw2.capp j = 0 ∧ rw2.rapp j = 0)
        ∧ (∀ j, rw2.seqLen < j → rw2.vol j = 0)) ?_ P 0 ([], [])
      (fun r2 hr2 => absurd hr2 (by simp)) r hr
    intro k rows r2 h1 h2
    have h := cfPatient_new_rows o (params k) (draws k) w k T rows r2 h1 h2
    exact ⟨h.2.2.2.2.1, h.2.2.2.1⟩
  · intro o params draws w T H P options rows2 hrun rw2 hm
    refine seqRunAux_mem o params draws w T H options
      (fun rw3 => (∀ j, rw3.seqLen + H ≤ j → rw3.vol j = FV.fin 0)
        ∧ (∀ j, rw3.seqLen + H - 1 ≤ j → rw3.capp j = 0 ∧ rw3.rapp j = 0))
      ?_ P 0 [] rows2 (fun rw3 hm3 => absurd hm3 (by simp)) hrun rw2 hm
    intro k t ps
    constructor
    · intro j hj
      simp [seqMkRow, show ¬ j < t + 1 + H + 1 from by simp [seqMkRow] at hj; omega]
    · intro j hj
      constructor <;>
        simp [seqMkRow, show ¬ j < t + 1 + H from by simp [seqMkRow] at hj; omega]

/-- C4 (amended): volume bounds.  In simulate every stored cancer_volume
entry lies in [0, death_threshold]: the death clamp bounds it above, and
an entry that would be nonpositive makes exp(-V * cell_density) at least
1, so the recovery rewrite to 0 always fires (recovery rvs lie in [0,1)).
In simulate_counterfactual_test_data the factual rows are clipped into
[0, death_threshold], and branch rows lie in the range at every index
except the divergent entry at index t + 1, which is written without
clipping and can leave the range. -/
theorem claim_C4 (o : SimOracle)
    (hthr : 0 ≤ tumour_death_threshold o)
    (hexp : ∀ x, 0 ≤ x → 1 ≤ o.exp x) :
    (∀ (params : ℕ → PatientParams) (draws : ℕ → PatientDraws)
        (asg : Option (ℕ → ℕ → ℚ × ℚ)) (w T i : ℕ), 2 ≤ T →
        (∀ s, 0 ≤ (draws i).recovery_rvs s ∧ (draws i).recovery_rvs s < 1) →
        0 ≤ (params i).initial_volume →
        (params i).initial_volume ≤ tumour_death_threshold o →
        ∀ j, 0 ≤ (simulateCohort o params draws asg w T i).arr.vol j
          ∧ (simulateCohort o params draws asg w T i).arr.vol j
              ≤ tumour_death_threshold o)
    ∧ (∀ (params : ℕ → PatientParams) (draws : ℕ → PatientDraws) (w T P r : ℕ),
        (∀ k, 0 ≤ (params k).initial_volume
          ∧ (params k).initial_volume ≤ tumour_death_threshold o) →
        r < (simulate_counterfactual_test_data o params draws w T P).1.length →
        (((simulate_counterfactual_test_data o params draws w T P).1.getD r
            default).isBranch = false →
          ∀ j, 0 ≤ ((simulate_counterfactual_test_data o params draws w T P).1.getD r
              default).vol j
            ∧ ((simulate_counterfactual_test_data o params draws w T P).1.getD r
                default).vol j ≤ tumour_death_threshold o)
        ∧ (((simulate_counterfactual_test_data o params draws w T P).1.getD r
            default).isBranch = true →
          ∀ j, j ≠ ((simulate_counterfactual_test_data o params draws w T P).1.getD r
              default).decisionT + 1 →
            0 ≤ ((simulate_counterfactual_test_data o params draws w T P).1.getD r
                default).vol j
            ∧ ((simulate_counterfactual_test_data o params draws w T P).1.getD r
                default).vol j ≤ tumour_death_threshold o)) := by
  constructor
  · intro params draws asg w T i h2 hrv h0 h1 j
    have hred : simulateCohort o params draws asg w T i
        = simLoop o (params i) (draws i) (asg.map fun f => f i) w (T - 1) 0
            { SimArrays.zero with vol := upd (fun _ => 0) 0 (params i).initial_volume } := rfl
    rw [hred]
    have hvr := simLoop_volIn o (params i) (draws i) (asg.map fun f => f i) w (T - 1) 0
      { SimArrays.zero with vol := upd (fun _ => 0) 0 (params i).initial_volume }
      (Or.inl (by omega)) hrv hexp hthr
      (cfInitArrays_volIn o (params i) ⟨h0, h1⟩)
    have hz := simLoop_zeroFrom o (params i) (draws i) (asg.map fun f => f i) w (T - 1) 0
      { SimArrays.zero with vol := upd (fun _ => 0) 0 (params i).initial_volume }
      (cfInitArrays_zeroFrom (params i))
    by_cases hj : j ≤ (simLoop o (params i) (draws i) (asg.map fun f => f i) w (T - 1) 0
        { SimArrays.zero with vol := upd (fun _ => 0) 0 (params i).initial_volume }).tStop + 1
    · exact hvr j hj
    · rw [hz.2 j (not_le.mp hj)]
      exact ⟨le_refl 0, hthr⟩
  · intro params draws w T P r hvol hr
    refine cfRunAux_pred o params draws w T
      (fun rw2 => (rw2.isBranch = false →
          ∀ j, 0 ≤ rw2.vol j ∧ rw2.vol j ≤ tumour_death_threshold o)
        ∧ (rw2.isBranch = true → ∀ j, j ≠ rw2.decisionT + 1 →
          0 ≤ rw2.vol j ∧ rw2.vol j ≤ tumour_death_threshold o)) ?_ P 0 ([], [])
      (fun r2 hr2 => absurd hr2 (by simp)) r hr
    intro k rows r2 h1 h2
    have h := cfPatient_new_rows o (params k) (draws k) w k T rows r2 h1 h2
    exact ⟨h.2.2.2.2.2.1 hthr (hvol k), h.2.2.2.2.2.2 hthr (hvol k)⟩

/-- C5 (amended): in the branch loop of simulate_sequence_test a branch
is discarded exactly when its projected volume buffer contains a NaN
(np.isnan): given in-bounds noise reads the loop completes (the run is
not aborted by a NaN branch) and its output rows are the filterMap of
the options keeping every branch whose buffer is free of NaN — in
particular a branch whose buffer contains an infinity but no NaN is
emitted, contrary to the original claim. -/
theorem claim_C5 (o : SimOracle) (p : PatientParams) (noise : List ℚ)
    (t H : ℕ) (pt : ℚ) (i : ℕ) (fa : SeqFact)
    (opts : List (ℕ → ℕ × ℕ)) (rows : List SeqRow)
    (hb : H = 0 ∨ t + H + 1 < noise.length) :
    (seqOptLoop o p noise t H pt i fa opts rows).isSome = true
    ∧ (seqOptLoop o p noise t H pt i fa opts rows).getD []
        = rows ++ opts.filterMap (fun opt =>
            match projBranch o p opt noise t H fa with
            | none => none
            | some ps =>
              if anyNaNBuf ps.vol (t + 1 + H + 1) then none
              else some (seqMkRow t H ps pt i)) := by
  obtain ⟨rows2, h2⟩ := seqOptLoop_isSome o p noise t H pt i fa opts rows hb
  rw [h2]
  exact ⟨rfl, seqOptLoop_filterMap o p noise t H pt i fa opts rows rows2 h2⟩

/-- C9: the per-patient noise array of simulate_sequence_test has
num_time_steps + 20 entries while the projection reads noise at
t + 1 + projection_time + 1, so every noise access is in bounds
whenever projection_horizon <= 20 (for any inputs), and for every
projection_horizon > 20 there is an input — a patient whose factual
path reaches the last decision step — on which the routine reads past
the end of the noise array (the run returns none, the IndexError). -/
theorem claim_C9 (T H : ℕ) :
    (H ≤ 20 → ∀ (o : SimOracle) (params : ℕ → PatientParams) (draws : ℕ → SeqDraws)
        (w P : ℕ) (options : List (ℕ → ℕ × ℕ)),
        (∀ k, (draws k).noise.length = T + 20) →
        (simulate_sequence_test o params draws w T H P options).isSome = true)
    ∧ (20 < H →
        simulate_sequence_test oEval (fun _ => pRho) (fun _ => sdEvil) 15 2 H 1 optSingle
          = none) := by
  constructor
  · intro hH o params draws w P options hlen
    obtain ⟨rows2, h2⟩ := seqRunAux_isSome o params draws w T H options hH hlen P 0 []
    rw [simulate_sequence_test, h2]
    rfl
  · intro hH
    obtain ⟨m, rfl⟩ : ∃ m, H = m + 21 := ⟨H - 21, by omega⟩
    have hnl : sdEvil.noise.length = 22 := by simp [sdEvil]
    obtain ⟨fa2, hfa2⟩ := seqFactStep_isSome oEval pRho sdEvil 15 0 []
      (seqFactInit pRho) 0 (by omega)
    have hpb : projBranch oEval pRho optZero sdEvil.noise 0 (m + 21) fa2 = none := by
      unfold projBranch
      refine projLoop_none oEval pRho sdEvil.noise 0 optZero (m + 21) 0
        (projInit fa2 0) 20 (by omega) ?_ ?_
      · exact List.get?_eq_none.mpr (by omega)
      · intro k2 hk2
        omega
    have hopt : seqOptLoop oEval pRho sdEvil.noise 0 (m + 21) pRho.patient_type 0 fa2
        optSingle [] = none := by
      simp only [optSingle, seqOptLoop, hpb]
    show seqRunAux oEval (fun _ => pRho) (fun _ => sdEvil) 15 2 (m + 21) optSingle 1 0 []
      = none
    simp only [seqRunAux, seqPatient, seqLoop, hfa2, hopt]

/-! ## Arithmetic-notation unfolding for float values -/

/-- Addition notation on FV unfolds to FV.add. -/
theorem FV.add_def (x y : FV) : x + y = FV.add x y := rfl

/-- Subtraction notation on FV unfolds to FV.sub. -/
theorem FV.sub_def (x y : FV) : x - y = FV.sub x y := rfl

/-- Multiplication notation on FV unfolds to FV.mul. -/
theorem FV.mul_def (x y : FV) : x * y = FV.mul x y := rfl

/-- Division notation on FV unfolds to FV.div. -/
theorem FV.div_def (x y : FV) : x / y = FV.div x y := rfl

/-- Negation notation on FV unfolds to FV.neg. -/
theorem FV.neg_def (x : FV) : -x = FV.neg x := rfl

/-- exp of oEval is at least 1 on nonnegative arguments. -/
theorem oEval_exp_ge_one (x : ℚ) (hx : 0 ≤ x) : 1 ≤ oEval.exp x := by
  simp only [oEval]
  rw [if_neg (not_lt.mpr hx)]

/-! ## Counterexamples -/

/-- C2 counterexample: in the cfDemo run the branch row at output index 1
is emitted at factual decision time 0 but stored with sequence_lengths
entry 1 = 0 + 1, not 0 + 2. -/
theorem claim_C2_cex :
    1 < cfDemo.1.length
    ∧ (cfDemo.1.getD 1 default).isBranch = true
    ∧ (cfDemo.1.getD 1 default).decisionT = 0
    ∧ (cfDemo.1.getD 1 default).seqLen = 1
    ∧ (cfDemo.1.getD 1 default).seqLen ≠ (cfDemo.1.getD 1 default).decisionT + 2 := by
  norm_num [cfDemo, simulate_counterfactual_test_data, cfRunAux, cfPatient,
    cfLoop, cfStepRows, cfBreakCond, cfFactualRow, cfBranchRow, cfBranchVol,
    cfFactUpdate, cfNewVol, cfNewVolRaw, cfChemoDoseT, cfRadioDoseT,
    cfChemoApplied, cfRadioApplied, cfChemoProb, cfRadioProb, cfPrevDose,
    cfMetric, cf_treatment_options, cancer_metric_used, sigmoid_prob,
    calc_diameter, calc_volume, tumour_death_threshold, tumour_cell_density,
    chemo_decay, chemo_amt, radio_amt, drug_half_life, upd, SimArrays.zero,
    oEval, pChemoHeavy, pBase, dQuiet, List.range_succ, List.filterMap_cons, List.filterMap_nil]

/-- C3 counterexample: in the simQuiet run the cancer_volume entry at
index 1 = sequence_length is the last computed volume, 1, not zero. -/
theorem claim_C3_cex :
    simQuiet.seqLen ≤ 1 ∧ simQuiet.arr.vol 1 ≠ 0 := by
  norm_num [simQuiet, simulatePatient, simLoop, simStep, simBrk, simStoredVol,
    simNewVol, simChemoDoseT, simRadioDoseT, simChemoApplied, simRadioApplied,
    simChemoProb, simRadioProb, sigmoid_prob, cancer_metric_used, calc_diameter,
    calc_volume, tumour_death_threshold, tumour_cell_density, chemo_decay,
    chemo_amt, radio_amt, drug_half_life, upd, SimArrays.zero, oEval, pBase,
    dQuiet, List.range_succ, List.filterMap_cons, List.filterMap_nil]

/-- C4 counterexample: in the cfDemo run the branch row at output index 2
(chemo applied at decision time 0) stores the unclipped divergent volume
-4 at index 1, a negative cancer_volume entry. -/
theorem claim_C4_cex :
    2 < cfDemo.1.length ∧ (cfDemo.1.getD 2 default).vol 1 < 0 := by
  norm_num [cfDemo, simulate_counterfactual_test_data, cfRunAux, cfPatient,
    cfLoop, cfStepRows, cfBreakCond, cfFactualRow, cfBranchRow, cfBranchVol,
    cfFactUpdate, cfNewVol, cfNewVolRaw, cfChemoDoseT, cfRadioDoseT,
    cfChemoApplied, cfRadioApplied, cfChemoProb, cfRadioProb, cfPrevDose,
    cfMetric, cf_treatment_options, cancer_metric_used, sigmoid_prob,
    calc_diameter, calc_volume, tumour_death_threshold, tumour_cell_density,
    chemo_decay, chemo_amt, radio_amt, drug_half_life, upd, SimArrays.zero,
    oEval, pChemoHeavy, pBase, dQuiet, List.range_succ, List.filterMap_cons, List.filterMap_nil]

/-- C5 counterexample: the seqDemo run emits a row whose projected volume
buffer holds -inf at index 3 (inside the buffer of length
t + 1 + H + 1 = 4): a branch with a non-finite, non-NaN projected volume
is not discarded. -/
theorem claim_C5_cex :
    seqDemo.isSome = true
    ∧ (seqDemo.getD []).length = 1
    ∧ ((seqDemo.getD []).getD 0 default).seqLen = 2
    ∧ ((seqDemo.getD []).getD 0 default).vol 3 = FV.ninf := by
  norm_num [seqDemo, simulate_sequence_test, seqRunAux, seqPatient, seqLoop,
    seqFactInit, seqFactStep, seqBreakCond, seqOptLoop, seqMkRow, anyNaNBuf,
    projBranch, projLoop, projStep, projInit, fvSigmoid, seqMetric, fvDiameter,
    updF, FV.sumF, FV.clip0, FV.minF, FV.maxF, FV.isnan, FV.fle, FV.flt,
    FV.cbrtF, FV.logF, FV.expF, FV.add_def, FV.sub_def, FV.mul_def, FV.div_def,
    FV.neg_def, FV.add, FV.sub, FV.mul, FV.div, FV.neg, seqEps,
    tumour_death_threshold, tumour_cell_density, calc_volume, chemo_decay,
    chemo_amt, radio_amt, drug_half_life, upd, oEval, pRho, pBase, sdEvil,
    optSingle, optZero, List.range_succ, List.filterMap_cons, List.filterMap_nil]

/-- C6 counterexample: in the simMetricDemo run (window_size 1) the chemo
probability stored at step 1 is not the sigmoid of the mean diameter over
min(window_size, t + 1) = 1 trailing entries; the slice actually used has
window_size + 1 = 2 entries. -/
theorem claim_C6_cex :
    1 < simMetricDemo.seqLen
    ∧ simMetricDemo.arr.cprob 1
        ≠ sigmoid_prob oMetric pMetricDemo.chemo_sigmoid_beta
            pMetricDemo.chemo_sigmoid_intercept
            (trailing_diameter_mean oMetric simMetricDemo.arr.vol 1 (min 1 (1 + 1))) := by
  norm_num [simMetricDemo, simulatePatient, simLoop, simStep, simBrk,
    simStoredVol, simNewVol, simChemoDoseT, simRadioDoseT, simChemoApplied,
    simRadioApplied, simChemoProb, simRadioProb, sigmoid_prob,
    cancer_metric_used, trailing_diameter_mean, calc_diameter, calc_volume,
    tumour_death_threshold, tumour_cell_density, chemo_decay, chemo_amt,
    radio_amt, drug_half_life, upd, SimArrays.zero, oMetric, pMetricDemo,
    pBase, dMetricDemo, List.range_succ, List.filterMap_cons, List.filterMap_nil]

/-! ## Witnesses -/

/-- C1 witness at the cfDemo run, branch row 1, shared index 0. -/
theorem claim_C1_witness :
    (cfDemo.1.getD 1 default).vol 0
      = (cfDemo.2.getD (cfDemo.1.getD 1 default).patient default).vol 0 :=
  claim_C1 oEval (fun _ => pChemoHeavy) (fun _ => dQuiet) 15 2 1 1
    (by norm_num [cfDemo, simulate_counterfactual_test_data, cfRunAux,
      cfPatient, cfLoop, cfStepRows, cfBreakCond, cfFactualRow, cfBranchRow,
      cfBranchVol, cfFactUpdate, cfNewVol, cfNewVolRaw, cfChemoDoseT,
      cfRadioDoseT, cfChemoApplied, cfRadioApplied, cfChemoProb, cfRadioProb,
      cfPrevDose, cfMetric, cf_treatment_options, cancer_metric_used,
      sigmoid_prob, calc_diameter, calc_volume, tumour_death_threshold,
      tumour_cell_density, chemo_decay, chemo_amt, radio_amt, drug_half_life,
      upd, SimArrays.zero, oEval, pChemoHeavy, pBase, dQuiet, List.range_succ, List.filterMap_cons, List.filterMap_nil])
    (by norm_num [cfDemo, simulate_counterfactual_test_data, cfRunAux,
      cfPatient, cfLoop, cfStepRows, cfBreakCond, cfFactualRow, cfBranchRow,
      cfBranchVol, cfFactUpdate, cfNewVol, cfNewVolRaw, cfChemoDoseT,
      cfRadioDoseT, cfChemoApplied, cfRadioApplied, cfChemoProb, cfRadioProb,
      cfPrevDose, cfMetric, cf_treatment_options, cancer_metric_used,
      sigmoid_prob, calc_diameter, calc_volume, tumour_death_threshold,
      tumour_cell_density, chemo_decay, chemo_amt, radio_amt, drug_half_life,
      upd, SimArrays.zero, oEval, pChemoHeavy, pBase, dQuiet, List.range_succ, List.filterMap_cons, List.filterMap_nil])
    0 (Nat.zero_le _)

/-- C2 witness at the cfDemo run, branch row 1. -/
theorem claim_C2_witness :
    (cfDemo.1.getD 1 default).seqLen = (cfDemo.1.getD 1 default).decisionT + 1 :=
  claim_C2 oEval (fun _ => pChemoHeavy) (fun _ => dQuiet) 15 2 1 1
    (by norm_num [cfDemo, simulate_counterfactual_test_data, cfRunAux,
      cfPatient, cfLoop, cfStepRows, cfBreakCond, cfFactualRow, cfBranchRow,
      cfBranchVol, cfFactUpdate, cfNewVol, cfNewVolRaw, cfChemoDoseT,
      cfRadioDoseT, cfChemoApplied, cfRadioApplied, cfChemoProb, cfRadioProb,
      cfPrevDose, cfMetric, cf_treatment_options, cancer_metric_used,
      sigmoid_prob, calc_diameter, calc_volume, tumour_death_threshold,
      tumour_cell_density, chemo_decay, chemo_amt, radio_amt, drug_half_life,
      upd, SimArrays.zero, oEval, pChemoHeavy, pBase, dQuiet, List.range_succ, List.filterMap_cons, List.filterMap_nil])
    (by norm_num [cfDemo, simulate_counterfactual_test_data, cfRunAux,
      cfPatient, cfLoop, cfStepRows, cfBreakCond, cfFactualRow, cfBranchRow,
      cfBranchVol, cfFactUpdate, cfNewVol, cfNewVolRaw, cfChemoDoseT,
      cfRadioDoseT, cfChemoApplied, cfRadioApplied, cfChemoProb, cfRadioProb,
      cfPrevDose, cfMetric, cf_treatment_options, cancer_metric_used,
      sigmoid_prob, calc_diameter, calc_volume, tumour_death_threshold,
      tumour_cell_density, chemo_decay, chemo_amt, radio_amt, drug_half_life,
      upd, SimArrays.zero, oEval, pChemoHeavy, pBase, dQuiet, List.range_succ, List.filterMap_cons, List.filterMap_nil])

/-- C3 witness: padding facts at concrete runs of all three routines. -/
theorem claim_C3_witness :
    simQuiet.arr.cdos 1 = 0 ∧ simQuiet.arr.vol 2 = 0
    ∧ (cfDemo.1.getD 0 default).capp 1 = 0
    ∧ (cfDemo.1.getD 0 default).vol 2 = 0
    ∧ ((seqDemo.getD []).getD 0 default).vol 10 = FV.fin 0 := by
  have h := claim_C3
  refine ⟨?_, ?_, ?_, ?_, ?_⟩
  · exact ((h.1 oEval (fun _ => pBase) (fun _ => dQuiet) none 15 2 0 1).1
      (by norm_num [simulateCohort, simulatePatient, simLoop, simStep, simBrk,
        simStoredVol, simNewVol, simChemoDoseT, simRadioDoseT, simChemoApplied,
        simRadioApplied, simChemoProb, simRadioProb, sigmoid_prob,
        cancer_metric_used, calc_diameter, calc_volume, tumour_death_threshold,
        tumour_cell_density, chemo_decay, chemo_amt, radio_amt, drug_half_life,
        upd, SimArrays.zero, oEval, pBase, dQuiet, List.range_succ, List.filterMap_cons, List.filterMap_nil])).1
  · exact (h.1 oEval (fun _ => pBase) (fun _ => dQuiet) none 15 2 0 2).2
      (by norm_num [simulateCohort, simulatePatient, simLoop, simStep, simBrk,
        simStoredVol, simNewVol, simChemoDoseT, simRadioDoseT, simChemoApplied,
        simRadioApplied, simChemoProb, simRadioProb, sigmoid_prob,
        cancer_metric_used, calc_diameter, calc_volume, tumour_death_threshold,
        tumour_cell_density, chemo_decay, chemo_amt, radio_amt, drug_half_life,
        upd, SimArrays.zero, oEval, pBase, dQuiet, List.range_succ, List.filterMap_cons, List.filterMap_nil])
  · exact ((h.2.1 oEval (fun _ => pChemoHeavy) (fun _ => dQuiet) 15 2 1 0
      (by norm_num [cfDemo, simulate_counterfactual_test_data, cfRunAux,
        cfPatient, cfLoop, cfStepRows, cfBreakCond, cfFactualRow, cfBranchRow,
        cfBranchVol, cfFactUpdate, cfNewVol, cfNewVolRaw, cfChemoDoseT,
        cfRadioDoseT, cfChemoApplied, cfRadioApplied, cfChemoProb, cfRadioProb,
        cfPrevDose, cfMetric, cf_treatment_options, cancer_metric_used,
        sigmoid_prob, calc_diameter, calc_volume, tumour_death_threshold,
        tumour_cell_density, chemo_decay, chemo_amt, radio_amt, drug_half_life,
        upd, SimArrays.zero, oEval, pChemoHeavy, pBase, dQuiet,
        List.range_succ, List.filterMap_cons, List.filterMap_nil])).1 1
      (by norm_num [cfDemo, simulate_counterfactual_test_data, cfRunAux,
        cfPatient, cfLoop, cfStepRows, cfBreakCond, cfFactualRow, cfBranchRow,
        cfBranchVol, cfFactUpdate, cfNewVol, cfNewVolRaw, cfChemoDoseT,
        cfRadioDoseT, cfChemoApplied, cfRadioApplied, cfChemoProb, cfRadioProb,
        cfPrevDose, cfMetric, cf_treatment_options, cancer_metric_used,
        sigmoid_prob, calc_diameter, calc_volume, tumour_death_threshold,
        tumour_cell_density, chemo_decay, chemo_amt, radio_amt, drug_half_life,
        upd, SimArrays.zero, oEval, pChemoHeavy, pBase, dQuiet,
        List.range_succ, List.filterMap_cons, List.filterMap_nil])).1
  · exact (h.2.1 oEval (fun _ => pChemoHeavy) (fun _ => dQuiet) 15 2 1 0
      (by norm_num [cfDemo, simulate_counterfactual_test_data, cfRunAux,
        cfPatient, cfLoop, cfStepRows, cfBreakCond, cfFactualRow, cfBranchRow,
        cfBranchVol, cfFactUpdate, cfNewVol, cfNewVolRaw, cfChemoDoseT,
        cfRadioDoseT, cfChemoApplied, cfRadioApplied, cfChemoProb, cfRadioProb,
        cfPrevDose, cfMetric, cf_treatment_options, cancer_metric_used,
        sigmoid_prob, calc_diameter, calc_volume, tumour_death_threshold,
        tumour_cell_density, chemo_decay, chemo_amt, radio_amt, drug_half_life,
        upd, SimArrays.zero, oEval, pChemoHeavy, pBase, dQuiet,
        List.range_succ, List.filterMap_cons, List.filterMap_nil])).2 2
      (by norm_num [cfDemo, simulate_counterfactual_test_data, cfRunAux,
        cfPatient, cfLoop, cfStepRows, cfBreakCond, cfFactualRow, cfBranchRow,
        cfBranchVol, cfFactUpdate, cfNewVol, cfNewVolRaw, cfChemoDoseT,
        cfRadioDoseT, cfChemoApplied, cfRadioApplied, cfChemoProb, cfRadioProb,
        cfPrevDose, cfMetric, cf_treatment_options, cancer_metric_used,
        sigmoid_prob, calc_diameter, calc_volume, tumour_death_threshold,
        tumour_cell_density, chemo_decay, chemo_amt, radio_amt, drug_half_life,
        upd, SimArrays.zero, oEval, pChemoHeavy, pBase, dQuiet,
        List.range_succ, List.filterMap_cons, List.filterMap_nil])
  · obtain ⟨rows2, h2⟩ : ∃ r2, seqDemo = some r2 :=
      Option.isSome_iff_exists.mp (by norm_num [seqDemo, simulate_sequence_test,
        seqRunAux, seqPatient, seqLoop, seqFactInit, seqFactStep, seqBreakCond,
        seqOptLoop, seqMkRow, anyNaNBuf, projBranch, projLoop, projStep,
        projInit, fvSigmoid, seqMetric, fvDiameter, updF, FV.sumF, FV.clip0,
        FV.minF, FV.maxF, FV.isnan, FV.fle, FV.flt, FV.cbrtF, FV.logF, FV.expF,
        FV.add_def, FV.sub_def, FV.mul_def, FV.div_def, FV.neg_def, FV.add,
        FV.sub, FV.mul, FV.div, FV.neg, seqEps, tumour_death_threshold,
        tumour_cell_density, calc_volume, chemo_decay, chemo_amt, radio_amt,
        drug_half_life, upd, oEval, pRho, pBase, sdEvil, optSingle, optZero,
        List.range_succ, List.filterMap_cons, List.filterMap_nil])
    have hrun : simulate_sequence_test oEval (fun _ => pRho) (fun _ => sdEvil)
        15 2 2 1 optSingle = some (seqDemo.getD []) := by
      rw [show simulate_sequence_test oEval (fun _ => pRho) (fun _ => sdEvil)
        15 2 2 1 optSingle = seqDemo from rfl, h2, Option.getD_some]
    have hmem : (seqDemo.getD []).getD 0 default ∈ seqDemo.getD [] := by
      norm_num [seqDemo, simulate_sequence_test,
        seqRunAux, seqPatient, seqLoop, seqFactInit, seqFactStep, seqBreakCond,
        seqOptLoop, seqMkRow, anyNaNBuf, projBranch, projLoop, projStep,
        projInit, fvSigmoid, seqMetric, fvDiameter, updF, FV.sumF, FV.clip0,
        FV.minF, FV.maxF, FV.isnan, FV.fle, FV.flt, FV.cbrtF, FV.logF, FV.expF,
        FV.add_def, FV.sub_def, FV.mul_def, FV.div_def, FV.neg_def, FV.add,
        FV.sub, FV.mul, FV.div, FV.neg, seqEps, tumour_death_threshold,
        tumour_cell_density, calc_volume, chemo_decay, chemo_amt, radio_amt,
        drug_half_life, upd, oEval, pRho, pBase, sdEvil, optSingle, optZero,
        List.range_succ, List.filterMap_cons, List.filterMap_nil] at h2 ⊢
    exact (h.2.2 oEval (fun _ => pRho) (fun _ => sdEvil) 15 2 2 1 optSingle
      (seqDemo.getD []) hrun ((seqDemo.getD []).getD 0 default) hmem).1 10
      (by norm_num [seqDemo, simulate_sequence_test,
        seqRunAux, seqPatient, seqLoop, seqFactInit, seqFactStep, seqBreakCond,
        seqOptLoop, seqMkRow, anyNaNBuf, projBranch, projLoop, projStep,
        projInit, fvSigmoid, seqMetric, fvDiameter, updF, FV.sumF, FV.clip0,
        FV.minF, FV.maxF, FV.isnan, FV.fle, FV.flt, FV.cbrtF, FV.logF, FV.expF,
        FV.add_def, FV.sub_def, FV.mul_def, FV.div_def, FV.neg_def, FV.add,
        FV.sub, FV.mul, FV.div, FV.neg, seqEps, tumour_death_threshold,
        tumour_cell_density, calc_volume, chemo_decay, chemo_amt, radio_amt,
        drug_half_life, upd, oEval, pRho, pBase, sdEvil, optSingle, optZero,
        List.range_succ, List.filterMap_cons, List.filterMap_nil])

/-- C4 witness: the volume-range facts at concrete runs, for the simulate
cohort, a factual row, and a branch row away from its divergent index. -/
theorem claim_C4_witness :
    (0 ≤ simQuiet.arr.vol 1 ∧ simQuiet.arr.vol 1 ≤ tumour_death_threshold oEval)
    ∧ (0 ≤ (cfDemo.1.getD 0 default).vol 1
        ∧ (cfDemo.1.getD 0 default).vol 1 ≤ tumour_death_threshold oEval)
    ∧ (0 ≤ (cfDemo.1.getD 1 default).vol 0
        ∧ (cfDemo.1.getD 1 default).vol 0 ≤ tumour_death_threshold oEval) := by
  have h := claim_C4 oEval
    (by norm_num [tumour_death_threshold, calc_volume, oEval])
    oEval_exp_ge_one
  refine ⟨?_, ?_, ?_⟩
  · exact h.1 (fun _ => pBase) (fun _ => dQuiet) none 15 2 0 (by norm_num)
      (fun s => by norm_num [dQuiet])
      (by norm_num [pBase])
      (by norm_num [pBase, tumour_death_threshold, calc_volume, oEval]) 1
  · exact (h.2 (fun _ => pChemoHeavy) (fun _ => dQuiet) 15 2 1 0
      (fun k => by norm_num [pChemoHeavy, pBase, tumour_death_threshold,
        calc_volume, oEval])
      (by norm_num [cfDemo, simulate_counterfactual_test_data, cfRunAux,
        cfPatient, cfLoop, cfStepRows, cfBreakCond, cfFactualRow, cfBranchRow,
        cfBranchVol, cfFactUpdate, cfNewVol, cfNewVolRaw, cfChemoDoseT,
        cfRadioDoseT, cfChemoApplied, cfRadioApplied, cfChemoProb, cfRadioProb,
        cfPrevDose, cfMetric, cf_treatment_options, cancer_metric_used,
        sigmoid_prob, calc_diameter, calc_volume, tumour_death_threshold,
        tumour_cell_density, chemo_decay, chemo_amt, radio_amt, drug_half_life,
        upd, SimArrays.zero, oEval, pChemoHeavy, pBase, dQuiet,
        List.range_succ, List.filterMap_cons, List.filterMap_nil])).1
      (by norm_num [cfDemo, simulate_counterfactual_test_data, cfRunAux,
        cfPatient, cfLoop, cfStepRows, cfBreakCond, cfFactualRow, cfBranchRow,
        cfBranchVol, cfFactUpdate, cfNewVol, cfNewVolRaw, cfChemoDoseT,
        cfRadioDoseT, cfChemoApplied, cfRadioApplied, cfChemoProb, cfRadioProb,
        cfPrevDose, cfMetric, cf_treatment_options, cancer_metric_used,
        sigmoid_prob, calc_diameter, calc_volume, tumour_death_threshold,
        tumour_cell_density, chemo_decay, chemo_amt, radio_amt, drug_half_life,
        upd, SimArrays.zero, oEval, pChemoHeavy, pBase, dQuiet,
        List.range_succ, List.filterMap_cons, List.filterMap_nil]) 1
  · exact (h.2 (fun _ => pChemoHeavy) (fun _ => dQuiet) 15 2 1 1
      (fun k => by norm_num [pChemoHeavy, pBase, tumour_death_threshold,
        calc_volume, oEval])
      (by norm_num [cfDemo, simulate_counterfactual_test_data, cfRunAux,
        cfPatient, cfLoop, cfStepRows, cfBreakCond, cfFactualRow, cfBranchRow,
        cfBranchVol, cfFactUpdate, cfNewVol, cfNewVolRaw, cfChemoDoseT,
        cfRadioDoseT, cfChemoApplied, cfRadioApplied, cfChemoProb, cfRadioProb,
        cfPrevDose, cfMetric, cf_treatment_options, cancer_metric_used,
        sigmoid_prob, calc_diameter, calc_volume, tumour_death_threshold,
        tumour_cell_density, chemo_decay, chemo_amt, radio_amt, drug_half_life,
        upd, SimArrays.zero, oEval, pChemoHeavy, pBase, dQuiet,
        List.range_succ, List.filterMap_cons, List.filterMap_nil])).2
      (by norm_num [cfDemo, simulate_counterfactual_test_data, cfRunAux,
        cfPatient, cfLoop, cfStepRows, cfBreakCond, cfFactualRow, cfBranchRow,
        cfBranchVol, cfFactUpdate, cfNewVol, cfNewVolRaw, cfChemoDoseT,
        cfRadioDoseT, cfChemoApplied, cfRadioApplied, cfChemoProb, cfRadioProb,
        cfPrevDose, cfMetric, cf_treatment_options, cancer_metric_used,
        sigmoid_prob, calc_diameter, calc_volume, tumour_death_threshold,
        tumour_cell_density, chemo_decay, chemo_amt, radio_amt, drug_half_life,
        upd, SimArrays.zero, oEval, pChemoHeavy, pBase, dQuiet,
        List.range_succ, List.filterMap_cons, List.filterMap_nil]) 0
      (by norm_num [cfDemo, simulate_counterfactual_test_data, cfRunAux,
        cfPatient, cfLoop, cfStepRows, cfBreakCond, cfFactualRow, cfBranchRow,
        cfBranchVol, cfFactUpdate, cfNewVol, cfNewVolRaw, cfChemoDoseT,
        cfRadioDoseT, cfChemoApplied, cfRadioApplied, cfChemoProb, cfRadioProb,
        cfPrevDose, cfMetric, cf_treatment_options, cancer_metric_used,
        sigmoid_prob, calc_diameter, calc_volume, tumour_death_threshold,
        tumour_cell_density, chemo_decay, chemo_amt, radio_amt, drug_half_life,
        upd, SimArrays.zero, oEval, pChemoHeavy, pBase, dQuiet,
        List.range_succ, List.filterMap_cons, List.filterMap_nil])

/-- C5 witness: the branch loop at the seqDemo inputs completes. -/
theorem claim_C5_witness :
    (seqOptLoop oEval pRho sdEvil.noise 0 2 pRho.patient_type 0
      (seqFactInit pRho) optSingle []).isSome = true :=
  (claim_C5 oEval pRho sdEvil.noise 0 2 pRho.patient_type 0 (seqFactInit pRho)
    optSingle [] (Or.inr (by norm_num [sdEvil]))).1

/-- C6 witness at the simMetricDemo run, step 1. -/
theorem claim_C6_witness :
    simMetricDemo.arr.cprob 1
      = sigmoid_prob oMetric pMetricDemo.chemo_sigmoid_beta
          pMetricDemo.chemo_sigmoid_intercept
          (trailing_diameter_mean oMetric simMetricDemo.arr.vol 1
            (min (1 + 1) (1 + 1))) :=
  (claim_C6 oMetric pMetricDemo dMetricDemo 1 3 1 (by norm_num)
    (by norm_num [simMetricDemo, simulatePatient, simLoop, simStep, simBrk,
      simStoredVol, simNewVol, simChemoDoseT, simRadioDoseT, simChemoApplied,
      simRadioApplied, simChemoProb, simRadioProb, sigmoid_prob,
      cancer_metric_used, calc_diameter, calc_volume, tumour_death_threshold,
      tumour_cell_density, chemo_decay, chemo_amt, radio_amt, drug_half_life,
      upd, SimArrays.zero, oMetric, pMetricDemo, pBase, dMetricDemo,
      List.range_succ, List.filterMap_cons, List.filterMap_nil])).1

/-- C7 witness at the simConf0 run, step 0. -/
theorem claim_C7_witness :
    simConf0.arr.cprob 0 = 1 / 2 ∧ simConf0.arr.rprob 0 = 1 / 2 :=
  claim_C7 oEval (fun _ => pBase) (fun _ => dQuiet) 15 2 0 0
    (by norm_num [oEval]) (by norm_num)
    (by norm_num [simulateCohort, get_confounding_params, simConf0,
      simulatePatient, simLoop, simStep, simBrk, simStoredVol, simNewVol,
      simChemoDoseT, simRadioDoseT, simChemoApplied, simRadioApplied,
      simChemoProb, simRadioProb, sigmoid_prob, cancer_metric_used,
      calc_diameter, calc_volume, tumour_death_threshold, tumour_cell_density,
      chemo_decay, chemo_amt, radio_amt, drug_half_life, upd, SimArrays.zero,
      oEval, pBase, dQuiet, List.range_succ, List.filterMap_cons, List.filterMap_nil])

/-- C8 witness at the simChemoOnce run: one decay step after the single
application. -/
theorem claim_C8_witness :
    simChemoOnce.arr.cdos (0 + 1)
      = simChemoOnce.arr.cdos 0 * chemo_decay oEval ^ 1 :=
  claim_C8 oEval pBase dChemoOnce none 15 3 0 1 (by norm_num)
    (by norm_num [simChemoOnce, simulatePatient, simLoop, simStep, simBrk,
      simStoredVol, simNewVol, simChemoDoseT, simRadioDoseT, simChemoApplied,
      simRadioApplied, simChemoProb, simRadioProb, sigmoid_prob,
      cancer_metric_used, calc_diameter, calc_volume, tumour_death_threshold,
      tumour_cell_density, chemo_decay, chemo_amt, radio_amt, drug_half_life,
      upd, SimArrays.zero, oEval, pBase, dChemoOnce, dQuiet, List.range_succ, List.filterMap_cons, List.filterMap_nil])
    (fun s h1 h2 => by
      have hs : s = 1 := by omega
      subst hs
      norm_num [simChemoOnce, simulatePatient, simLoop, simStep, simBrk,
        simStoredVol, simNewVol, simChemoDoseT, simRadioDoseT, simChemoApplied,
        simRadioApplied, simChemoProb, simRadioProb, sigmoid_prob,
        cancer_metric_used, calc_diameter, calc_volume, tumour_death_threshold,
        tumour_cell_density, chemo_decay, chemo_amt, radio_amt, drug_half_life,
        upd, SimArrays.zero, oEval, pBase, dChemoOnce, dQuiet, List.range_succ, List.filterMap_cons, List.filterMap_nil])

/-- C9 witness: the run is some for horizon 2 and none for horizon 21 on
the sdEvil inputs. -/
theorem claim_C9_witness :
    (simulate_sequence_test oEval (fun _ => pRho) (fun _ => sdEvil) 15 2 2 1
      optSingle).isSome = true
    ∧ simulate_sequence_test oEval (fun _ => pRho) (fun _ => sdEvil) 15 2 21 1
      optSingle = none := by
  constructor
  · exact (claim_C9 2 2).1 (by norm_num) oEval (fun _ => pRho)
      (fun _ => sdEvil) 15 1 optSingle (fun k => by norm_num [sdEvil])
  · exact (claim_C9 2 21).2 (by norm_num)

/-- C10 witness at the simQuiet run. -/
theorem claim_C10_witness :
    simQuiet.seqLen ≤ 2 - 1 ∧ simQuiet.seqLen = 2 - 1
    ∧ simQuiet.arr.vol 2 = 0 := by
  have h := claim_C10 oEval pBase dQuiet none 15 2 (by norm_num)
  exact ⟨h.1, h.2.1
    (by norm_num [simQuiet, simulatePatient, simLoop, simStep, simBrk,
      simStoredVol, simNewVol, simChemoDoseT, simRadioDoseT, simChemoApplied,
      simRadioApplied, simChemoProb, simRadioProb, sigmoid_prob,
      cancer_metric_used, calc_diameter, calc_volume, tumour_death_threshold,
      tumour_cell_density, chemo_decay, chemo_amt, radio_amt, drug_half_life,
      upd, SimArrays.zero, oEval, pBase, dQuiet, List.range_succ, List.filterMap_cons, List.filterMap_nil]),
    h.2.2 2
    (by norm_num [simQuiet, simulatePatient, simLoop, simStep, simBrk,
      simStoredVol, simNewVol, simChemoDoseT, simRadioDoseT, simChemoApplied,
      simRadioApplied, simChemoProb, simRadioProb, sigmoid_prob,
      cancer_metric_used, calc_diameter, calc_volume, tumour_death_threshold,
      tumour_cell_density, chemo_decay, chemo_amt, radio_amt, drug_half_life,
      upd, SimArrays.zero, oEval, pBase, dQuiet, List.range_succ, List.filterMap_cons, List.filterMap_nil])⟩

end CancerSim
